import Mathlib

/-!
Verification of the Shadow Coder fact ledger and rule/prompt engine
(`backend/services/shadow_coder/facts_service.py`,
`backend/services/shadow_coder/rules_engine.py`, and the prompt-action
route of `backend/routes/shadow_coder.py`).

The two SQL tables `scc_case_facts` and `scc_prompt_instances` are embedded
as Lean lists of rows inside a `DB` state; every service method becomes a
pure state-passing function.  Timestamps are `Int` (an abstract totally
ordered clock, `NOW()` is passed in as an argument), `gen_random_uuid()`
becomes a fresh-id counter, and JSONB scalars are `Option String` (`none`
is SQL NULL).  Confidence scores are `Option ℚ` ordered as the SQL
`confidence DESC NULLS LAST` clause orders them.  Where Python code
catches a storage exception, the possible failure of the storage layer is
passed in as an explicit boolean/oracle argument.
-/

namespace ShadowCoder

/-- `status` column of `scc_prompt_instances`. -/
inductive PStatus
  | active
  | resolved
  | dismissed
  | snoozed
deriving DecidableEq, Repr

/-- `enum_severity`. -/
inductive Severity
  | block
  | warn
  | info
deriving DecidableEq, Repr

/-- `resolution_type` values used by the code. -/
inductive ResolutionType
  | fact_added
  | manual_dismiss
  | attestation
deriving DecidableEq, Repr

/-- A row of `scc_case_facts`. -/
structure FactRow where
  id : Nat
  case_id : String
  patient_id : Option String
  fact_type : String
  value_json : Option String
  confidence : Option ℚ
  source_type : String
  voice_note_id : Option String
  source_ref : Option String
  verified : Bool
  verified_by : Option String
  verified_at : Option Int
  superseded_by : Option Nat
  superseded_at : Option Int
  createdAt : Int
  updatedAt : Int
deriving DecidableEq, Repr

/-- A row of `scc_prompt_instances`. -/
structure PromptRow where
  id : Nat
  case_id : String
  rule_id : String
  status : PStatus
  severity : Severity
  message : String
  details : String
  guideline_ref : Option String
  action_choices : String
  snoozed_until : Option Int
  first_surfaced_at : Int
  view_count : Nat
  snooze_count : Nat
  resolution_type : Option ResolutionType
  resolution_note : Option String
  resolved_by : Option String
  resolved_at : Option Int
  createdAt : Int
  updatedAt : Int
deriving DecidableEq, Repr

/-- The database state the two services read and write, plus the
fresh-uuid source. -/
structure DB where
  facts : List FactRow
  prompts : List PromptRow
  nextId : Nat
deriving DecidableEq, Repr

/-! ## Fact ledger (`facts_service.py`) -/

/-- `confidence DESC NULLS LAST`: `a` sorts strictly before `b`
(higher confidence wins, null confidence sorts last). -/
def confGt : Option ℚ → Option ℚ → Bool
  | some x, some y => decide (y < x)
  | some _, none => true
  | none, _ => false

/-- Row `a` sorts strictly before row `b` under
`ORDER BY "createdAt" DESC, confidence DESC NULLS LAST`. -/
def factBetter (a b : FactRow) : Bool :=
  decide (b.createdAt < a.createdAt) ||
    (decide (a.createdAt = b.createdAt) && confGt a.confidence b.confidence)

/-- Keep the better of two rows (first row wins full ties, as a
deterministic instance of `DISTINCT ON`). -/
def pickFact (a b : FactRow) : FactRow :=
  if factBetter b a then b else a

/-- The rows of `scc_case_facts` selected by
`WHERE case_id = :case_id AND superseded_at IS NULL AND fact_type = ft`. -/
def liveFactsFor (facts : List FactRow) (case_id ft : String) : List FactRow :=
  facts.filter fun f =>
    decide (f.case_id = case_id ∧ f.superseded_at = none ∧ f.fact_type = ft)

/-- The entry `get_fact_map` builds for one row. -/
structure FactMapEntry where
  value : Option String
  confidence : Option ℚ
  verified : Bool
  fact_id : Nat
  recorded_at : Int
deriving DecidableEq, Repr

/-- Projection of a fact row into a `get_fact_map` entry. -/
def entryOf (f : FactRow) : FactMapEntry :=
  { value := f.value_json
    confidence := f.confidence
    verified := f.verified
    fact_id := f.id
    recorded_at := f.createdAt }

/-- `FactsService.get_fact_map`, viewed at one key: the
`SELECT DISTINCT ON (fact_type) ... ORDER BY fact_type, "createdAt" DESC,
confidence DESC NULLS LAST` query returns, for each fact type with at
least one live row, the first row of that type in the sort order; the
Python loop stores it in a dict. -/
def get_fact_map (facts : List FactRow) (case_id ft : String) :
    Option FactMapEntry :=
  match liveFactsFor facts case_id ft with
  | [] => none
  | h :: t => some (entryOf (t.foldl pickFact h))

/-- `FactsService.get_fact_values` composed with Python `dict.get`:
the value the rule engine sees for key `k` (`none` when the key is
absent or its stored value is SQL NULL). -/
def snap (facts : List FactRow) (case_id k : String) : Option String :=
  match get_fact_map facts case_id k with
  | some e => e.value
  | none => none

/-- The record `FactsService.add_fact` returns. -/
structure FactRec where
  id : Nat
  fact_type : String
  value : Option String
  confidence : Option ℚ
  created_at : Int
deriving DecidableEq, Repr

/-- The row the `add_fact` `INSERT` writes into `scc_case_facts`. -/
def newFactRow (db : DB) (case_id : String) (patient_id : Option String)
    (fact_type value : String) (confidence : ℚ) (source_type : String)
    (voice_note_id source_ref : Option String) (now : Int) : FactRow :=
  { id := db.nextId
    case_id := case_id
    patient_id := patient_id
    fact_type := fact_type
    value_json := some value
    confidence := some confidence
    source_type := source_type
    voice_note_id := voice_note_id
    source_ref := source_ref
    verified := false
    verified_by := none
    verified_at := none
    superseded_by := none
    superseded_at := none
    createdAt := now
    updatedAt := now }

/-- `FactsService.add_fact`.  `storage_ok` is the outcome of the
`INSERT`: when the storage layer raises, the transaction is rolled back
and the exception is re-raised (`Except.error`). -/
def add_fact (storage_ok : Bool) (db : DB) (case_id : String)
    (patient_id : Option String) (fact_type : String) (value : String)
    (confidence : ℚ) (source_type : String) (voice_note_id : Option String)
    (source_ref : Option String) (now : Int) :
    Except String (FactRec × DB) :=
  if storage_ok then
    Except.ok
      ({ id := db.nextId, fact_type := fact_type, value := some value
         confidence := some confidence, created_at := now },
       { db with
          facts := db.facts ++ [newFactRow db case_id patient_id fact_type
            value confidence source_type voice_note_id source_ref now]
          nextId := db.nextId + 1 })
  else
    Except.error "Failed to add fact"

/-- One entry of the list handed to `add_facts_batch`. -/
structure FactSpec where
  fact_type : String
  value : String
  confidence : Option ℚ
  source_ref : Option String
deriving DecidableEq, Repr

/-- Loop body of `FactsService.add_facts_batch`: each `add_fact` failure
is logged and skipped, the rest of the batch continues.  `oracle i` is
the storage outcome for the i-th insert attempt. -/
def add_facts_batch_go (oracle : Nat → Bool) (case_id : String)
    (voice_note_id patient_id : Option String) (now : Int) :
    Nat → DB → List FactSpec → List FactRec × DB
  | _, db, [] => ([], db)
  | i, db, f :: rest =>
    match add_fact (oracle i) db case_id patient_id f.fact_type f.value
        (f.confidence.getD 1) "voice_note" voice_note_id f.source_ref now with
    | Except.ok (rec, db') =>
      let (rs, db'') :=
        add_facts_batch_go oracle case_id voice_note_id patient_id now
          (i + 1) db' rest
      (rec :: rs, db'')
    | Except.error _ =>
      add_facts_batch_go oracle case_id voice_note_id patient_id now
        (i + 1) db rest

/-- `FactsService.add_facts_batch`. -/
def add_facts_batch (oracle : Nat → Bool) (db : DB) (case_id : String)
    (facts : List FactSpec) (voice_note_id patient_id : Option String)
    (now : Int) : List FactRec × DB :=
  add_facts_batch_go oracle case_id voice_note_id patient_id now 0 db facts

/-- `FactsService.supersede_fact`: `UPDATE scc_case_facts SET
superseded_by, superseded_at, "updatedAt" WHERE id = :fact_id`.  There
is no affected-row check; the method returns `True` whenever the
statement commits, `False` only when the storage layer raises
(`storage_ok = false`), in which case the transaction is rolled back. -/
def supersede_fact (storage_ok : Bool) (db : DB) (fact_id : Nat)
    (new_fact_id : Option Nat) (now : Int) : Bool × DB :=
  if storage_ok then
    (true,
     { db with
        facts := db.facts.map fun f =>
          if f.id = fact_id then
            { f with superseded_by := new_fact_id, superseded_at := some now
                     updatedAt := now }
          else f })
  else (false, db)

/-- `FactsService.verify_fact`: `UPDATE scc_case_facts SET verified,
verified_by, verified_at, "updatedAt" WHERE id = :fact_id`; same failure
convention as `supersede_fact`. -/
def verify_fact (storage_ok : Bool) (db : DB) (fact_id : Nat)
    (verified_by : String) (now : Int) : Bool × DB :=
  if storage_ok then
    (true,
     { db with
        facts := db.facts.map fun f =>
          if f.id = fact_id then
            { f with verified := true, verified_by := some verified_by
                     verified_at := some now, updatedAt := now }
          else f })
  else (false, db)

/-- Insert into a list sorted by `createdAt` descending. -/
def insertByCreatedDesc (f : FactRow) : List FactRow → List FactRow
  | [] => [f]
  | g :: t =>
    if g.createdAt ≤ f.createdAt then f :: g :: t
    else g :: insertByCreatedDesc f t

/-- `ORDER BY "createdAt" DESC`. -/
def sortByCreatedDesc : List FactRow → List FactRow
  | [] => []
  | f :: t => insertByCreatedDesc f (sortByCreatedDesc t)

/-- `FactsService.get_fact_history`: all facts of a case, live and
superseded, optionally filtered by type, newest first. -/
def get_fact_history (facts : List FactRow) (case_id : String)
    (fact_type : Option String) : List FactRow :=
  sortByCreatedDesc
    (facts.filter fun f =>
      decide (f.case_id = case_id) &&
        match fact_type with
        | some t => decide (f.fact_type = t)
        | none => true)

/-! ## Rule/prompt engine (`rules_engine.py`) -/

/-- One entry of the static `PAD_RULES` table.  `condition` is the
optional Python predicate over the fact snapshot; a raising predicate is
`Except.error ()`. -/
structure Rule where
  id : String
  name : String
  description : String
  severity : Severity
  condition : Option ((String → Option String) → Except Unit Bool)
  required_facts : List String
  alternative_facts : Option (List String)
  message : String
  guideline_ref : Option String

/-- `PAD_001_SYMPTOM_CLASS`. -/
def pad_001 : Rule :=
  { id := "PAD_001_SYMPTOM_CLASS"
    name := "PAD Symptom Classification Required"
    description := "Must document symptom classification for PAD procedures"
    severity := Severity.block
    condition := none
    required_facts := ["pad_symptom_class"]
    alternative_facts := none
    message := "PAD symptom classification not documented. Must specify: asymptomatic, claudication, rest pain, or tissue loss."
    guideline_ref := some "AUC for PAD Revascularization" }

/-- `PAD_002_LATERALITY`. -/
def pad_002 : Rule :=
  { id := "PAD_002_LATERALITY"
    name := "Laterality Required"
    description := "Must document which leg (left, right, bilateral)"
    severity := Severity.block
    condition := none
    required_facts := ["laterality"]
    alternative_facts := none
    message := "Laterality not documented. Specify left, right, or bilateral."
    guideline_ref := some "CPT Coding Guidelines" }

/-- `PAD_003_ABI_FOR_CLAUDICATION`. -/
def pad_003 : Rule :=
  { id := "PAD_003_ABI_FOR_CLAUDICATION"
    name := "ABI Required for Claudication"
    description := "ABI/TBI needed to document objective ischemia for claudication"
    severity := Severity.warn
    condition := some fun facts =>
      Except.ok (facts "pad_symptom_class" == some "claudication")
    required_facts := ["abi_value"]
    alternative_facts := some ["tbi_value", "toe_pressure"]
    message := "ABI/TBI not documented. Objective ischemia should be documented for claudication intervention."
    guideline_ref := some "TASC II, SVS Guidelines" }

/-- `PAD_004_MEDICAL_MGMT_CLAUDICATION`. -/
def pad_004 : Rule :=
  { id := "PAD_004_MEDICAL_MGMT_CLAUDICATION"
    name := "Medical Management for Claudication"
    description := "Must document trial of medical management before intervention for claudication"
    severity := Severity.warn
    condition := some fun facts =>
      Except.ok (facts "pad_symptom_class" == some "claudication")
    required_facts := ["antiplatelet_documented", "statin_documented"]
    alternative_facts := none
    message := "Medical management trial not documented. Document antiplatelet and statin therapy for claudication."
    guideline_ref := some "AUC for PAD Revascularization" }

/-- `PAD_005_CLI_WOUND`. -/
def pad_005 : Rule :=
  { id := "PAD_005_CLI_WOUND"
    name := "Wound Documentation for CLI"
    description := "Wound details needed for tissue loss classification"
    severity := Severity.warn
    condition := some fun facts =>
      Except.ok (facts "pad_symptom_class" == some "tissue_loss")
    required_facts := ["wound_present"]
    alternative_facts := none
    message := "Wound documentation incomplete. Document wound location and staging for tissue loss."
    guideline_ref := some "WIfI Classification" }

/-- `PAD_006_TARGET_VESSEL`. -/
def pad_006 : Rule :=
  { id := "PAD_006_TARGET_VESSEL"
    name := "Target Vessel Required"
    description := "Must document target vessel for procedure coding"
    severity := Severity.block
    condition := none
    required_facts := ["target_vessel"]
    alternative_facts := none
    message := "Target vessel not documented. Specify which vessels will be treated."
    guideline_ref := some "CPT Vascular Coding" }

/-- `PAD_007_STENT_JUSTIFICATION`. -/
def pad_007 : Rule :=
  { id := "PAD_007_STENT_JUSTIFICATION"
    name := "Stent Justification"
    description := "Stent use should be justified when performed"
    severity := Severity.info
    condition := some fun facts =>
      Except.ok (facts "procedure_technique" == some "stent" ||
        facts "procedure_technique" == some "atherectomy_stent")
    required_facts := ["stent_justification"]
    alternative_facts := none
    message := "Stent justification not documented. Consider documenting reason for stent vs PTA alone."
    guideline_ref := some "Medically Necessity Documentation" }

/-- `CAROTID_001_STENOSIS`. -/
def carotid_001 : Rule :=
  { id := "CAROTID_001_STENOSIS"
    name := "Carotid Stenosis Degree"
    description := "Must document stenosis percentage for carotid procedures"
    severity := Severity.block
    condition := some fun facts =>
      Except.ok (facts "target_territory" == some "carotid")
    required_facts := ["carotid_stenosis_degree"]
    alternative_facts := none
    message := "Carotid stenosis degree not documented. Specify percent stenosis."
    guideline_ref := some "SVS Carotid Guidelines" }

/-- `CAROTID_002_SYMPTOM_STATUS`. -/
def carotid_002 : Rule :=
  { id := "CAROTID_002_SYMPTOM_STATUS"
    name := "Carotid Symptom Status"
    description := "Must document symptomatic vs asymptomatic for carotid"
    severity := Severity.block
    condition := some fun facts =>
      Except.ok (facts "target_territory" == some "carotid")
    required_facts := ["carotid_symptom_status"]
    alternative_facts := none
    message := "Carotid symptom status not documented. Specify symptomatic or asymptomatic."
    guideline_ref := some "CMS LCD for Carotid Stenting" }

/-- The static `PAD_RULES` table (the engine constructor sets
`self.rules = PAD_RULES`). -/
def PAD_RULES : List Rule :=
  [pad_001, pad_002, pad_003, pad_004, pad_005, pad_006, pad_007,
   carotid_001, carotid_002]

/-- The `required_facts` whose snapshot value is absent or null
(the Python loop building `missing_facts`). -/
def requiredMissing (g : String → Option String) (rule : Rule) :
    List String :=
  rule.required_facts.filter fun k => (g k).isNone

/-- `missing_facts` after the `alternative_facts` check: any present and
non-null alternative clears the missing list. -/
def missingOf (g : String → Option String) (rule : Rule) : List String :=
  let missing := requiredMissing g rule
  if missing.isEmpty then missing
  else
    match rule.alternative_facts with
    | some alts => if alts.any fun a => (g a).isSome then [] else missing
    | none => missing

/-- `str(action_choices)` as inserted by `_create_or_update_prompt`. -/
def action_choices_str : String :=
  "[\x7b\x27action_id\x27: \x27DOCUMENT\x27, \x27label\x27: \x27Document Now\x27, \x27type\x27: \x27note\x27\x7d, \x7b\x27action_id\x27: \x27SNOOZE_24H\x27, \x27label\x27: \x27Remind Tomorrow\x27, \x27type\x27: \x27snooze\x27, \x27duration_hours\x27: 24\x7d, \x7b\x27action_id\x27: \x27DISMISS\x27, \x27label\x27: \x27Not Applicable\x27, \x27type\x27: \x27dismiss\x27\x7d]"

/-- `SELECT id FROM scc_prompt_instances WHERE case_id = :case_id AND
rule_id = :rule_id AND status = 'active'` has a row. -/
def hasActivePrompt (prompts : List PromptRow) (case_id rule_id : String) :
    Bool :=
  prompts.any fun p =>
    decide (p.case_id = case_id ∧ p.rule_id = rule_id ∧
      p.status = PStatus.active)

/-- The row `_create_or_update_prompt` inserts. -/
def newPromptRow (db : DB) (case_id : String) (rule : Rule)
    (missing : List String) (now : Int) : PromptRow :=
  { id := db.nextId
    case_id := case_id
    rule_id := rule.id
    status := PStatus.active
    severity := rule.severity
    message := rule.message
    details := "Missing documentation: " ++ String.intercalate ", " missing
    guideline_ref := rule.guideline_ref
    action_choices := action_choices_str
    snoozed_until := none
    first_surfaced_at := now
    view_count := 0
    snooze_count := 0
    resolution_type := none
    resolution_note := none
    resolved_by := none
    resolved_at := none
    createdAt := now
    updatedAt := now }

/-- `RulesEngine._create_or_update_prompt`: lookup-before-insert; a
found active prompt makes the call a no-op returning `False`, otherwise
a new `active` row is inserted and `True` returned. -/
def create_or_update_prompt (db : DB) (case_id : String) (rule : Rule)
    (missing : List String) (now : Int) : Bool × DB :=
  if hasActivePrompt db.prompts case_id rule.id then (false, db)
  else
    (true,
     { db with
        prompts := db.prompts ++ [newPromptRow db case_id rule missing now]
        nextId := db.nextId + 1 })

/-- The `UPDATE` applied by `_resolve_prompt` to each matching row. -/
def resolveMark (case_id rule_id : String) (now : Int) (p : PromptRow) :
    PromptRow :=
  if p.case_id = case_id ∧ p.rule_id = rule_id ∧ p.status = PStatus.active
  then
    { p with status := PStatus.resolved
             resolution_type := some ResolutionType.fact_added
             resolved_at := some now
             updatedAt := now }
  else p

/-- `RulesEngine._resolve_prompt`: `UPDATE ... SET status='resolved',
resolution_type='fact_added' WHERE ... status='active' RETURNING id`;
returns whether any row was updated. -/
def resolve_prompt (db : DB) (case_id rule_id : String) (now : Int) :
    Bool × DB :=
  (hasActivePrompt db.prompts case_id rule_id,
   { db with prompts := db.prompts.map (resolveMark case_id rule_id now) })

/-- One entry of the `violations` list. -/
structure Violation where
  rule_id : String
  severity : Severity
  message : String
  missing_facts : List String
deriving DecidableEq, Repr

/-- The aggregate dict `evaluate_pad_rules` returns. -/
structure EvalResults where
  rules_evaluated : Nat
  prompts_created : Nat
  prompts_resolved : Nat
  violations : List Violation
  passed : List String
deriving DecidableEq, Repr

/-- Initial `results` dict. -/
def initResults : EvalResults :=
  { rules_evaluated := 0, prompts_created := 0, prompts_resolved := 0
    violations := [], passed := [] }

/-- The violated / satisfied halves of the loop body (after the
condition gate). -/
def evalRuleBody (g : String → Option String) (case_id : String)
    (now : Int) (res : EvalResults) (db : DB) (rule : Rule) :
    EvalResults × DB :=
  let missing := missingOf g rule
  if missing.isEmpty then
    let r := resolve_prompt db case_id rule.id now
    ({ res with
        passed := res.passed ++ [rule.id]
        prompts_resolved := res.prompts_resolved + (if r.1 then 1 else 0) },
     r.2)
  else
    let c := create_or_update_prompt db case_id rule missing now
    ({ res with
        violations := res.violations ++
          [⟨rule.id, rule.severity, rule.message, missing⟩]
        prompts_created := res.prompts_created + (if c.1 then 1 else 0) },
     c.2)

/-- One iteration of the `for rule in self.rules` loop: count the rule,
gate on the condition (false records the rule as passed; a raising
condition skips the rule without recording it), then check facts. -/
def evalStep (g : String → Option String) (case_id : String) (now : Int)
    (acc : EvalResults × DB) (rule : Rule) : EvalResults × DB :=
  let res := { acc.1 with rules_evaluated := acc.1.rules_evaluated + 1 }
  let db := acc.2
  match rule.condition with
  | some cond =>
    match cond g with
    | Except.error _ => (res, db)
    | Except.ok false => ({ res with passed := res.passed ++ [rule.id] }, db)
    | Except.ok true => evalRuleBody g case_id now res db rule
  | none => evalRuleBody g case_id now res db rule

/-- The rule loop, with the fact snapshot `g` fetched once up front. -/
def evalRulesAux (g : String → Option String) (case_id : String)
    (now : Int) (rules : List Rule) (acc : EvalResults × DB) :
    EvalResults × DB :=
  rules.foldl (evalStep g case_id now) acc

/-- `RulesEngine.evaluate_pad_rules` over an explicit `self.rules`
list. -/
def eval_rules (rules : List Rule) (db : DB) (case_id : String)
    (now : Int) : EvalResults × DB :=
  evalRulesAux (snap db.facts case_id) case_id now rules (initResults, db)

/-- `RulesEngine.evaluate_pad_rules` with the production rule table. -/
def evaluate_pad_rules (db : DB) (case_id : String) (now : Int) :
    EvalResults × DB :=
  eval_rules PAD_RULES db case_id now

/-! ## Prompt-action route (`routes/shadow_coder.py`,
`execute_prompt_action`) -/

/-- Python `str.upper()` on ASCII text. -/
def pyUpper (s : String) : String :=
  ⟨s.data.map Char.toUpper⟩

/-- `pre` is a prefix of `s` (Python `str.startswith`). -/
def pyStartsWithAux : List Char → List Char → Bool
  | _, [] => true
  | [], _ :: _ => false
  | a :: as, b :: bs => a == b && pyStartsWithAux as bs

/-- Python `s.startswith(pre)`. -/
def pyStartsWith (s pre : String) : Bool :=
  pyStartsWithAux s.data pre.data

/-- Python `s.split("_")` on the character list. -/
def splitUnderscoreAux (acc : List Char) : List Char → List (List Char)
  | [] => [acc.reverse]
  | c :: cs =>
    if c = '_' then acc.reverse :: splitUnderscoreAux [] cs
    else splitUnderscoreAux (c :: acc) cs

/-- Python `s.split("_")`. -/
def splitUnderscore (cs : List Char) : List (List Char) :=
  splitUnderscoreAux [] cs

/-- Python `s.replace("H", "")`. -/
def dropH (cs : List Char) : List Char :=
  cs.filter fun c => !(c == 'H')

/-- Strip leading and trailing whitespace (Python `int()` does this
before parsing). -/
def pyStrip (cs : List Char) : List Char :=
  ((cs.dropWhile Char.isWhitespace).reverse.dropWhile
    Char.isWhitespace).reverse

/-- Digit run of a Python integer literal: digits with single
underscores strictly between digits. -/
def pyDigitsAux : Nat → List Char → Option Nat
  | acc, [] => some acc
  | acc, c :: cs =>
    if c.isDigit then pyDigitsAux (acc * 10 + (c.toNat - 48)) cs
    else if c = '_' then
      match cs with
      | [] => none
      | d :: cs2 =>
        if d.isDigit then pyDigitsAux (acc * 10 + (d.toNat - 48)) cs2
        else none
    else none

/-- Parse a nonempty digit run. -/
def pyParseNat : List Char → Option Nat
  | [] => none
  | c :: cs => if c.isDigit then pyDigitsAux (c.toNat - 48) cs else none

/-- Python `int(s)` on an ASCII string: surrounding whitespace stripped,
optional sign, digits with single internal underscores; `none` when
`int()` would raise `ValueError`. -/
def pyIntParse (cs : List Char) : Option Int :=
  match pyStrip cs with
  | '+' :: rest => (pyParseNat rest).map fun n => (n : Int)
  | '-' :: rest => (pyParseNat rest).map fun n => -(n : Int)
  | stripped => (pyParseNat stripped).map fun n => (n : Int)

/-- The `hours` computation of the `SNOOZE` branch: default 24, then
`int(action.split("_")[1].replace("H", ""))` if that parses. -/
def parse_snooze_hours (action : String) : Int :=
  if action.data.contains '_' then
    match pyIntParse (dropH ((splitUnderscore action.data).getD 1 [])) with
    | some n => n
    | none => 24
  else 24

/-- Outcome of the `POST /prompts/{prompt_id}/action` handler. -/
inductive ActionOutcome
  | ok (action : String)
  | notFound
  | unknownAction
deriving DecidableEq, Repr

/-- Run one of the route's `UPDATE ... WHERE id = :id RETURNING id`
statements: apply `f` to every row with the given id; report 404 when no
row matched (the zero-row update leaves the table unchanged). -/
def runPromptUpdate (db : DB) (prompt_id : Nat) (action : String)
    (f : PromptRow → PromptRow) : ActionOutcome × DB :=
  if db.prompts.any fun p => decide (p.id = prompt_id) then
    (ActionOutcome.ok action,
     { db with
        prompts := db.prompts.map fun p =>
          if p.id = prompt_id then f p else p })
  else (ActionOutcome.notFound, db)

/-- `execute_prompt_action`: upper-case the action id, dispatch on
`DISMISS` / `SNOOZE*` / `DOCUMENT`-or-`RESOLVE`, reject anything else as
an unknown action.  None of the three updates checks the current
status. -/
def execute_prompt_action (db : DB) (prompt_id : Nat) (action_id : String)
    (note resolved_by : Option String) (now : Int) : ActionOutcome × DB :=
  let action := pyUpper action_id
  if action = "DISMISS" then
    runPromptUpdate db prompt_id action fun p =>
      { p with status := PStatus.dismissed
               resolution_type := some ResolutionType.manual_dismiss
               resolution_note := note
               resolved_by := resolved_by
               resolved_at := some now
               updatedAt := now }
  else if pyStartsWith action "SNOOZE" then
    let hours := parse_snooze_hours action
    runPromptUpdate db prompt_id action fun p =>
      { p with status := PStatus.snoozed
               snoozed_until := some (now + hours)
               snooze_count := p.snooze_count + 1
               updatedAt := now }
  else if action = "DOCUMENT" ∨ action = "RESOLVE" then
    runPromptUpdate db prompt_id action fun p =>
      { p with status := PStatus.resolved
               resolution_type := some ResolutionType.attestation
               resolution_note := note
               resolved_by := resolved_by
               resolved_at := some now
               updatedAt := now }
  else (ActionOutcome.unknownAction, db)

/-! ## Ordering lemmas for the `DISTINCT ON` selection -/

theorem confGt_irrefl (a : Option ℚ) : confGt a a = false := by
  cases a <;> simp [confGt]

theorem confGt_trans {a b c : Option ℚ} (h1 : confGt a b = true)
    (h2 : confGt b c = true) : confGt a c = true := by
  cases a <;> cases b <;> cases c <;>
    simp [confGt] at h1 h2 ⊢ <;> exact lt_trans h2 h1

theorem confGt_neg_trans {a b c : Option ℚ} (h1 : confGt b c = true)
    (h2 : confGt b a = false) : confGt a c = true := by
  cases a <;> cases b <;> cases c <;> simp [confGt] at h1 h2 ⊢
  exact lt_of_lt_of_le h1 h2

theorem factBetter_iff {a b : FactRow} :
    factBetter a b = true ↔
      b.createdAt < a.createdAt ∨
        (a.createdAt = b.createdAt ∧ confGt a.confidence b.confidence = true) := by
  simp [factBetter, Bool.or_eq_true, Bool.and_eq_true, decide_eq_true_eq]

theorem factBetter_irrefl (a : FactRow) : factBetter a a = false := by
  rw [Bool.eq_false_iff]
  intro h
  rcases factBetter_iff.1 h with h1 | ⟨_, h2⟩
  · omega
  · rw [confGt_irrefl] at h2; exact Bool.false_ne_true h2

theorem factBetter_trans {a b c : FactRow} (h1 : factBetter a b = true)
    (h2 : factBetter b c = true) : factBetter a c = true := by
  rcases factBetter_iff.1 h1 with h1 | ⟨h1e, h1c⟩ <;>
    rcases factBetter_iff.1 h2 with h2 | ⟨h2e, h2c⟩ <;>
      refine factBetter_iff.2 ?_
  · exact Or.inl (by omega)
  · exact Or.inl (by omega)
  · exact Or.inl (by omega)
  · exact Or.inr ⟨by omega, confGt_trans h1c h2c⟩

theorem factBetter_neg_trans {a b c : FactRow} (h1 : factBetter b c = true)
    (h2 : factBetter b a = false) : factBetter a c = true := by
  rw [Bool.eq_false_iff] at h2
  refine factBetter_iff.2 ?_
  rcases factBetter_iff.1 h1 with h1 | ⟨h1e, h1c⟩
  · by_cases hlt : c.createdAt < a.createdAt
    · exact Or.inl hlt
    · exfalso
      exact h2 (factBetter_iff.2 (Or.inl (by omega)))
  · by_cases hlt : c.createdAt < a.createdAt
    · exact Or.inl hlt
    · have hab : ¬ a.createdAt < b.createdAt := by
        intro hc
        exact h2 (factBetter_iff.2 (Or.inl hc))
      have he : a.createdAt = b.createdAt := by omega
      have hcg : confGt b.confidence a.confidence = false := by
        rw [Bool.eq_false_iff]
        intro hcc
        exact h2 (factBetter_iff.2 (Or.inr ⟨he.symm, hcc⟩))
      exact Or.inr ⟨by omega, confGt_neg_trans h1c hcg⟩

theorem foldl_pickFact_mem : ∀ (t : List FactRow) (a : FactRow),
    t.foldl pickFact a ∈ a :: t := by
  intro t
  induction t with
  | nil => intro a; simp
  | cons b t ih =>
    intro a
    rw [List.foldl_cons]
    rcases List.mem_cons.1 (ih (pickFact a b)) with heq | hmem
    · rw [heq]
      by_cases hb : factBetter b a = true
      · rw [show pickFact a b = b from by simp [pickFact, hb]]
        exact List.mem_cons_of_mem _ (List.mem_cons_self _ _)
      · rw [show pickFact a b = a from by simp [pickFact, hb]]
        exact List.mem_cons_self _ _
    · exact List.mem_cons_of_mem _ (List.mem_cons_of_mem _ hmem)

theorem foldl_pickFact_max : ∀ (t : List FactRow) (a x : FactRow),
    x ∈ a :: t → factBetter x (t.foldl pickFact a) = false := by
  intro t
  induction t with
  | nil =>
    intro a x hx
    rcases List.mem_cons.1 hx with rfl | h
    · exact factBetter_irrefl x
    · simp at h
  | cons b t ih =>
    intro a x hx
    rw [List.foldl_cons]
    by_cases hba : factBetter b a = true
    · have hpick : pickFact a b = b := by simp [pickFact, hba]
      rw [hpick]
      rcases List.mem_cons.1 hx with rfl | hx2
      · rw [Bool.eq_false_iff]
        intro har
        have hbr : factBetter b (t.foldl pickFact b) = true :=
          factBetter_trans hba har
        have hfalse := ih b b (List.mem_cons_self _ _)
        rw [hfalse] at hbr
        exact Bool.false_ne_true hbr
      · exact ih b x hx2
    · have hba2 : factBetter b a = false := Bool.eq_false_iff.2 hba
      have hpick : pickFact a b = a := by simp [pickFact, hba2]
      rw [hpick]
      rcases List.mem_cons.1 hx with rfl | hx2
      · exact ih _ _ (List.mem_cons_self _ _)
      · rcases List.mem_cons.1 hx2 with rfl | hx3
        · rw [Bool.eq_false_iff]
          intro hbr
          have har : factBetter a (t.foldl pickFact a) = true :=
            factBetter_neg_trans hbr hba2
          have hfalse := ih a a (List.mem_cons_self _ _)
          rw [hfalse] at har
          exact Bool.false_ne_true har
        · exact ih a x (List.mem_cons_of_mem _ hx3)

theorem liveFactsFor_mem {facts : List FactRow} {case_id ft : String}
    {f : FactRow} :
    f ∈ liveFactsFor facts case_id ft ↔
      f ∈ facts ∧ f.case_id = case_id ∧ f.superseded_at = none ∧
        f.fact_type = ft := by
  simp [liveFactsFor, List.mem_filter, decide_eq_true_eq]

/-- C2: `get_fact_map` has an entry for a fact type exactly when the case
has a live fact of that type; the entry is the projection of a live,
non-superseded fact of that case and type that no other such fact beats
on `created_at` (ties broken by `confidence`, nulls last); a case with no
facts yields the empty mapping. -/
theorem claim_C2 (facts : List FactRow) (case_id ft : String) :
    ((get_fact_map facts case_id ft).isSome ↔
      ∃ f ∈ facts, f.case_id = case_id ∧ f.superseded_at = none ∧
        f.fact_type = ft)
    ∧ (∀ e, get_fact_map facts case_id ft = some e →
        ∃ f ∈ facts,
          f.case_id = case_id ∧ f.superseded_at = none ∧ f.fact_type = ft ∧
          e = entryOf f ∧
          ∀ g ∈ facts, g.case_id = case_id → g.superseded_at = none →
            g.fact_type = ft →
            g.createdAt ≤ f.createdAt ∧
              (g.createdAt = f.createdAt →
                confGt g.confidence f.confidence = false))
    ∧ ((∀ f ∈ facts, f.case_id ≠ case_id) →
        get_fact_map facts case_id ft = none) := by
  refine ⟨?_, ?_, ?_⟩
  · unfold get_fact_map
    rcases hl : liveFactsFor facts case_id ft with _ | ⟨h, t⟩
    · simp only [Option.isSome_none]
      constructor
      · intro hc; exact absurd hc (by simp)
      · rintro ⟨f, hf, h1, h2, h3⟩
        have : f ∈ liveFactsFor facts case_id ft :=
          liveFactsFor_mem.2 ⟨hf, h1, h2, h3⟩
        rw [hl] at this
        simp at this
    · simp only [Option.isSome_some, true_iff]
      have hh : h ∈ liveFactsFor facts case_id ft := by
        rw [hl]; exact List.mem_cons_self _ _
      rcases liveFactsFor_mem.1 hh with ⟨hf, h1, h2, h3⟩
      exact ⟨h, hf, h1, h2, h3⟩
  · intro e he
    unfold get_fact_map at he
    rcases hl : liveFactsFor facts case_id ft with _ | ⟨h, t⟩
    · rw [hl] at he; simp at he
    · rw [hl] at he
      simp only [Option.some.injEq] at he
      have hbm : t.foldl pickFact h ∈ liveFactsFor facts case_id ft := by
        rw [hl]; exact foldl_pickFact_mem t h
      rcases liveFactsFor_mem.1 hbm with ⟨hf, h1, h2, h3⟩
      refine ⟨t.foldl pickFact h, hf, h1, h2, h3, he.symm, ?_⟩
      intro g hg hg1 hg2 hg3
      have hgm : g ∈ liveFactsFor facts case_id ft :=
        liveFactsFor_mem.2 ⟨hg, hg1, hg2, hg3⟩
      rw [hl] at hgm
      have hmax := foldl_pickFact_max t h g hgm
      rw [Bool.eq_false_iff] at hmax
      constructor
      · by_contra hlt
        exact hmax (factBetter_iff.2 (Or.inl (by omega)))
      · intro heq
        rw [Bool.eq_false_iff]
        intro hcg
        exact hmax (factBetter_iff.2 (Or.inr ⟨heq, hcg⟩))
  · intro hnone
    unfold get_fact_map
    rcases hl : liveFactsFor facts case_id ft with _ | ⟨h, t⟩
    · rfl
    · exfalso
      have hh : h ∈ liveFactsFor facts case_id ft := by
        rw [hl]; exact List.mem_cons_self _ _
      rcases liveFactsFor_mem.1 hh with ⟨hf, h1, _, _⟩
      exact hnone h hf h1

/-- Two live facts of the same type: id 0 created earlier, id 1 later. -/
def factsW2 : List FactRow :=
  [{ id := 0, case_id := "c", patient_id := none
     fact_type := "pad_symptom_class", value_json := some "claudication"
     confidence := some 1, source_type := "voice_note"
     voice_note_id := none, source_ref := none, verified := false
     verified_by := none, verified_at := none, superseded_by := none
     superseded_at := none, createdAt := 0, updatedAt := 0 },
   { id := 1, case_id := "c", patient_id := none
     fact_type := "pad_symptom_class", value_json := some "rest_pain"
     confidence := some 1, source_type := "voice_note"
     voice_note_id := none, source_ref := none, verified := false
     verified_by := none, verified_at := none, superseded_by := none
     superseded_at := none, createdAt := 5, updatedAt := 5 }]

/-- Witness for C2 at a concrete ledger: the later of two live facts of
the same type is surfaced as current. -/
theorem claim_C2_witness :
    ∃ f ∈ factsW2,
      f.case_id = "c" ∧ f.superseded_at = none ∧
        f.fact_type = "pad_symptom_class" ∧
        entryOf (factsW2.get ⟨1, by decide⟩) = entryOf f ∧
        ∀ g ∈ factsW2, g.case_id = "c" → g.superseded_at = none →
          g.fact_type = "pad_symptom_class" →
          g.createdAt ≤ f.createdAt ∧
            (g.createdAt = f.createdAt →
              confGt g.confidence f.confidence = false) :=
  (claim_C2 factsW2 "c" "pad_symptom_class").2.1
    (entryOf (factsW2.get ⟨1, by decide⟩)) (by decide)

/-! ## Basic characterizations of the engine's prompt operations -/

/-- The rule's condition gate lets it through: no condition, or the
predicate evaluates to true without raising. -/
def applicable (g : String → Option String) (r : Rule) : Prop :=
  r.condition = none ∨ ∃ c, r.condition = some c ∧ c g = Except.ok true

theorem hasActivePrompt_iff {ps : List PromptRow} {cid rid : String} :
    hasActivePrompt ps cid rid = true ↔
      ∃ p ∈ ps, p.case_id = cid ∧ p.rule_id = rid ∧
        p.status = PStatus.active := by
  simp [hasActivePrompt, List.any_eq_true, decide_eq_true_eq]

theorem hasActivePrompt_eq_false {ps : List PromptRow} {cid rid : String} :
    hasActivePrompt ps cid rid = false ↔
      ∀ p ∈ ps, p.case_id = cid → p.rule_id = rid →
        p.status ≠ PStatus.active := by
  rw [Bool.eq_false_iff, Ne, hasActivePrompt_iff]
  push_neg
  constructor
  · intro h p hp h1 h2 h3; exact h p hp h1 h2 h3
  · intro h p hp h1 h2 h3; exact h p hp h1 h2 h3

theorem resolveMark_id (cid rid : String) (now : Int) (p : PromptRow) :
    (resolveMark cid rid now p).id = p.id := by
  unfold resolveMark; split <;> rfl

theorem resolveMark_case_id (cid rid : String) (now : Int) (p : PromptRow) :
    (resolveMark cid rid now p).case_id = p.case_id := by
  unfold resolveMark; split <;> rfl

theorem resolveMark_rule_id (cid rid : String) (now : Int) (p : PromptRow) :
    (resolveMark cid rid now p).rule_id = p.rule_id := by
  unfold resolveMark; split <;> rfl

theorem resolveMark_of_not_active {cid rid : String} {now : Int}
    {p : PromptRow} (h : p.status ≠ PStatus.active) :
    resolveMark cid rid now p = p := by
  unfold resolveMark
  rw [if_neg]
  intro hc
  exact h hc.2.2

theorem resolveMark_of_ne_rule {cid rid : String} {now : Int}
    {p : PromptRow} (h : p.rule_id ≠ rid) :
    resolveMark cid rid now p = p := by
  unfold resolveMark
  rw [if_neg]
  intro hc
  exact h hc.2.1

theorem resolveMark_active {cid rid : String} {now : Int} {p : PromptRow}
    (h : (resolveMark cid rid now p).status = PStatus.active) :
    resolveMark cid rid now p = p := by
  by_cases hcond :
      p.case_id = cid ∧ p.rule_id = rid ∧ p.status = PStatus.active
  · exfalso
    unfold resolveMark at h
    rw [if_pos hcond] at h
    simp at h
  · unfold resolveMark
    rw [if_neg hcond]

theorem resolve_prompt_fst (db : DB) (cid rid : String) (now : Int) :
    (resolve_prompt db cid rid now).1 = hasActivePrompt db.prompts cid rid :=
  rfl

theorem resolve_prompt_prompts (db : DB) (cid rid : String) (now : Int) :
    (resolve_prompt db cid rid now).2.prompts
      = db.prompts.map (resolveMark cid rid now) := rfl

theorem resolve_prompt_facts (db : DB) (cid rid : String) (now : Int) :
    (resolve_prompt db cid rid now).2.facts = db.facts := rfl

theorem resolve_prompt_nextId (db : DB) (cid rid : String) (now : Int) :
    (resolve_prompt db cid rid now).2.nextId = db.nextId := rfl

theorem resolve_prompt_noop {db : DB} {cid rid : String} {now : Int}
    (h : hasActivePrompt db.prompts cid rid = false) :
    resolve_prompt db cid rid now = (false, db) := by
  unfold resolve_prompt
  rw [h]
  have hmap : db.prompts.map (resolveMark cid rid now) = db.prompts := by
    have hcongr : ∀ p ∈ db.prompts, resolveMark cid rid now p = p := by
      intro p hp
      unfold resolveMark
      rw [if_neg]
      intro hc
      exact hasActivePrompt_eq_false.1 h p hp hc.1 hc.2.1 hc.2.2
    calc db.prompts.map (resolveMark cid rid now)
        = db.prompts.map id := List.map_congr_left hcongr
      _ = db.prompts := List.map_id _
  rw [hmap]

theorem newPromptRow_fields (db : DB) (cid : String) (r : Rule)
    (m : List String) (now : Int) :
    (newPromptRow db cid r m now).id = db.nextId ∧
    (newPromptRow db cid r m now).case_id = cid ∧
    (newPromptRow db cid r m now).rule_id = r.id ∧
    (newPromptRow db cid r m now).status = PStatus.active :=
  ⟨rfl, rfl, rfl, rfl⟩

theorem create_found {db : DB} {cid : String} {r : Rule} {m : List String}
    {now : Int} (h : hasActivePrompt db.prompts cid r.id = true) :
    create_or_update_prompt db cid r m now = (false, db) := by
  unfold create_or_update_prompt
  rw [if_pos h]

theorem create_new {db : DB} {cid : String} {r : Rule} {m : List String}
    {now : Int} (h : hasActivePrompt db.prompts cid r.id = false) :
    create_or_update_prompt db cid r m now =
      (true,
       { db with prompts := db.prompts ++ [newPromptRow db cid r m now]
                 nextId := db.nextId + 1 }) := by
  unfold create_or_update_prompt
  rw [if_neg (by simp [h])]

/-! ## Equation lemmas for one iteration of the rule loop -/

theorem evalStep_cond_error {g : String → Option String} {cid : String}
    {now : Int} {res : EvalResults} {db : DB} {r : Rule}
    {c : (String → Option String) → Except Unit Bool} {u : Unit}
    (hc : r.condition = some c) (hg : c g = Except.error u) :
    evalStep g cid now (res, db) r =
      ({ res with rules_evaluated := res.rules_evaluated + 1 }, db) := by
  unfold evalStep
  rw [hc]
  dsimp only
  rw [hg]

theorem evalStep_cond_false {g : String → Option String} {cid : String}
    {now : Int} {res : EvalResults} {db : DB} {r : Rule}
    {c : (String → Option String) → Except Unit Bool}
    (hc : r.condition = some c) (hg : c g = Except.ok false) :
    evalStep g cid now (res, db) r =
      ({ res with rules_evaluated := res.rules_evaluated + 1
                  passed := res.passed ++ [r.id] }, db) := by
  unfold evalStep
  rw [hc]
  dsimp only
  rw [hg]

theorem evalStep_of_applicable {g : String → Option String} {cid : String}
    {now : Int} {res : EvalResults} {db : DB} {r : Rule}
    (h : applicable g r) :
    evalStep g cid now (res, db) r =
      evalRuleBody g cid now
        { res with rules_evaluated := res.rules_evaluated + 1 } db r := by
  rcases h with h | ⟨c, hc, hg⟩
  · unfold evalStep; rw [h]
  · unfold evalStep; rw [hc]; dsimp only; rw [hg]

theorem evalRuleBody_satisfied {g : String → Option String} {cid : String}
    {now : Int} {res : EvalResults} {db : DB} {r : Rule}
    (hm : missingOf g r = []) :
    evalRuleBody g cid now res db r =
      ({ res with
          passed := res.passed ++ [r.id]
          prompts_resolved := res.prompts_resolved +
            (if hasActivePrompt db.prompts cid r.id then 1 else 0) },
       (resolve_prompt db cid r.id now).2) := by
  unfold evalRuleBody
  rw [hm]
  rfl

theorem evalRuleBody_violated_found {g : String → Option String}
    {cid : String} {now : Int} {res : EvalResults} {db : DB} {r : Rule}
    (hm : missingOf g r ≠ []) (ha : hasActivePrompt db.prompts cid r.id = true) :
    evalRuleBody g cid now res db r =
      ({ res with
          violations := res.violations ++
            [⟨r.id, r.severity, r.message, missingOf g r⟩]
          prompts_created := res.prompts_created }, db) := by
  unfold evalRuleBody
  rw [if_neg (by simp [List.isEmpty_iff, hm]), create_found ha]
  simp

theorem evalRuleBody_violated_new {g : String → Option String}
    {cid : String} {now : Int} {res : EvalResults} {db : DB} {r : Rule}
    (hm : missingOf g r ≠ [])
    (ha : hasActivePrompt db.prompts cid r.id = false) :
    evalRuleBody g cid now res db r =
      ({ res with
          violations := res.violations ++
            [⟨r.id, r.severity, r.message, missingOf g r⟩]
          prompts_created := res.prompts_created + 1 },
       { db with
          prompts := db.prompts ++ [newPromptRow db cid r (missingOf g r) now]
          nextId := db.nextId + 1 }) := by
  unfold evalRuleBody
  rw [if_neg (by simp [List.isEmpty_iff, hm]), create_new ha]
  simp

theorem evalRulesAux_nil (g : String → Option String) (cid : String)
    (now : Int) (acc : EvalResults × DB) :
    evalRulesAux g cid now [] acc = acc := rfl

theorem evalRulesAux_cons (g : String → Option String) (cid : String)
    (now : Int) (r : Rule) (rest : List Rule) (acc : EvalResults × DB) :
    evalRulesAux g cid now (r :: rest) acc =
      evalRulesAux g cid now rest (evalStep g cid now acc r) := rfl

theorem bool_eq_of_iff {a b : Bool} (h : (a = true) ↔ (b = true)) :
    a = b := by
  cases a <;> cases b <;> simp_all

theorem hasActive_resolve_ne {ps : List PromptRow} {cid rid rid2 : String}
    {now : Int} (hne : rid2 ≠ rid) :
    hasActivePrompt (ps.map (resolveMark cid rid now)) cid rid2
      = hasActivePrompt ps cid rid2 := by
  apply bool_eq_of_iff
  rw [hasActivePrompt_iff, hasActivePrompt_iff]
  constructor
  · rintro ⟨q, hq, h1, h2, h3⟩
    rcases List.mem_map.1 hq with ⟨p, hp, rfl⟩
    have heq : resolveMark cid rid now p = p := resolveMark_active h3
    rw [heq] at h1 h2 h3
    exact ⟨p, hp, h1, h2, h3⟩
  · rintro ⟨p, hp, h1, h2, h3⟩
    have heq : resolveMark cid rid now p = p :=
      resolveMark_of_ne_rule (by rw [h2]; exact hne)
    exact ⟨p, List.mem_map.2 ⟨p, hp, heq⟩, h1, h2, h3⟩

theorem hasActive_append {ps : List PromptRow} {q : PromptRow}
    {cid rid : String} :
    hasActivePrompt (ps ++ [q]) cid rid =
      (hasActivePrompt ps cid rid ||
        decide (q.case_id = cid ∧ q.rule_id = rid ∧
          q.status = PStatus.active)) := by
  unfold hasActivePrompt
  rw [List.any_append]
  simp

/-- Exhaustive description of one loop iteration: the rule is skipped
(raising condition), recorded as passed (false condition), auto-resolved
(applicable and satisfied), a duplicate violation (active prompt found),
or a fresh violation (new prompt inserted). -/
theorem evalStep_cases (g : String → Option String) (cid : String)
    (now : Int) (res : EvalResults) (db : DB) (r : Rule) :
    (evalStep g cid now (res, db) r =
        ({ res with rules_evaluated := res.rules_evaluated + 1 }, db))
    ∨ (evalStep g cid now (res, db) r =
        ({ res with rules_evaluated := res.rules_evaluated + 1
                    passed := res.passed ++ [r.id] }, db))
    ∨ (applicable g r ∧ missingOf g r = [] ∧
        evalStep g cid now (res, db) r =
          ({ res with rules_evaluated := res.rules_evaluated + 1
                      passed := res.passed ++ [r.id]
                      prompts_resolved := res.prompts_resolved +
                        (if hasActivePrompt db.prompts cid r.id then 1
                         else 0) },
           (resolve_prompt db cid r.id now).2))
    ∨ (applicable g r ∧ missingOf g r ≠ [] ∧
        hasActivePrompt db.prompts cid r.id = true ∧
        evalStep g cid now (res, db) r =
          ({ res with rules_evaluated := res.rules_evaluated + 1
                      violations := res.violations ++
                        [⟨r.id, r.severity, r.message, missingOf g r⟩] },
           db))
    ∨ (applicable g r ∧ missingOf g r ≠ [] ∧
        hasActivePrompt db.prompts cid r.id = false ∧
        evalStep g cid now (res, db) r =
          ({ res with rules_evaluated := res.rules_evaluated + 1
                      violations := res.violations ++
                        [⟨r.id, r.severity, r.message, missingOf g r⟩]
                      prompts_created := res.prompts_created + 1 },
           { db with
              prompts := db.prompts ++
                [newPromptRow db cid r (missingOf g r) now]
              nextId := db.nextId + 1 })) := by
  have hbody : ∀ (happ : applicable g r),
      missingOf g r = [] ∨ missingOf g r ≠ [] := fun _ => em _
  by_cases happ : applicable g r
  · by_cases hm : missingOf g r = []
    · refine Or.inr (Or.inr (Or.inl ⟨happ, hm, ?_⟩))
      rw [evalStep_of_applicable happ, evalRuleBody_satisfied hm]
    · by_cases ha : hasActivePrompt db.prompts cid r.id = true
      · refine Or.inr (Or.inr (Or.inr (Or.inl ⟨happ, hm, ha, ?_⟩)))
        rw [evalStep_of_applicable happ, evalRuleBody_violated_found hm ha]
      · have ha2 : hasActivePrompt db.prompts cid r.id = false :=
          Bool.eq_false_iff.2 ha
        refine Or.inr (Or.inr (Or.inr (Or.inr ⟨happ, hm, ha2, ?_⟩)))
        rw [evalStep_of_applicable happ, evalRuleBody_violated_new hm ha2]
  · rcases hc : r.condition with _ | c
    · exact absurd (Or.inl hc) happ
    · rcases hg : c g with u | b
      · exact Or.inl (evalStep_cond_error hc hg)
      · cases b
        · exact Or.inr (Or.inl (evalStep_cond_false hc hg))
        · exact absurd (Or.inr ⟨c, hc, hg⟩) happ

theorem evalStep_facts (g : String → Option String) (cid : String)
    (now : Int) (res : EvalResults) (db : DB) (r : Rule) :
    (evalStep g cid now (res, db) r).2.facts = db.facts := by
  rcases evalStep_cases g cid now res db r with
    he | he | ⟨_, _, he⟩ | ⟨_, _, _, he⟩ | ⟨_, _, _, he⟩ <;> rw [he] <;>
    first
      | rfl
      | exact resolve_prompt_facts db cid r.id now

theorem evalStep_nextId_le (g : String → Option String) (cid : String)
    (now : Int) (res : EvalResults) (db : DB) (r : Rule) :
    db.nextId ≤ (evalStep g cid now (res, db) r).2.nextId := by
  rcases evalStep_cases g cid now res db r with
    he | he | ⟨_, _, he⟩ | ⟨_, _, _, he⟩ | ⟨_, _, _, he⟩ <;> rw [he] <;>
    simp [resolve_prompt_nextId]

theorem evalStep_hasActive_ne {g : String → Option String} {cid : String}
    {now : Int} {res : EvalResults} {db : DB} {r : Rule} {rid : String}
    (hne : rid ≠ r.id) :
    hasActivePrompt (evalStep g cid now (res, db) r).2.prompts cid rid
      = hasActivePrompt db.prompts cid rid := by
  rcases evalStep_cases g cid now res db r with
    he | he | ⟨_, _, he⟩ | ⟨_, _, _, he⟩ | ⟨_, _, _, he⟩ <;> rw [he]
  · rw [resolve_prompt_prompts]
    exact hasActive_resolve_ne hne
  · rw [show ({ db with
        prompts := db.prompts ++ [newPromptRow db cid r (missingOf g r) now]
        nextId := db.nextId + 1 } : DB).prompts
      = db.prompts ++ [newPromptRow db cid r (missingOf g r) now] from rfl]
    rw [hasActive_append]
    have hq : decide ((newPromptRow db cid r (missingOf g r) now).case_id = cid ∧
        (newPromptRow db cid r (missingOf g r) now).rule_id = rid ∧
        (newPromptRow db cid r (missingOf g r) now).status = PStatus.active)
        = false := by
      simp only [decide_eq_false_iff_not]
      intro hcon
      exact hne (by rw [← hcon.2.1]; rfl)
    rw [hq, Bool.or_false]

/-- Rows not matching any processed rule id keep their active status. -/
theorem evalRulesAux_hasActive_ne {g : String → Option String}
    {cid : String} {now : Int} {rid : String} :
    ∀ (rules : List Rule) (acc : EvalResults × DB),
      (∀ r ∈ rules, r.id ≠ rid) →
      hasActivePrompt (evalRulesAux g cid now rules acc).2.prompts cid rid
        = hasActivePrompt acc.2.prompts cid rid := by
  intro rules
  induction rules with
  | nil => intro acc _; rfl
  | cons r rest ih =>
    intro acc hall
    rw [evalRulesAux_cons, ih _ (fun r2 h2 => hall r2 (List.mem_cons_of_mem _ h2))]
    obtain ⟨res, db⟩ := acc
    exact evalStep_hasActive_ne
      (fun he => hall r (List.mem_cons_self _ _) he.symm)

theorem evalRulesAux_facts (g : String → Option String) (cid : String)
    (now : Int) :
    ∀ (rules : List Rule) (acc : EvalResults × DB),
      (evalRulesAux g cid now rules acc).2.facts = acc.2.facts := by
  intro rules
  induction rules with
  | nil => intro acc; rfl
  | cons r rest ih =>
    intro acc
    rw [evalRulesAux_cons, ih]
    obtain ⟨res, db⟩ := acc
    exact evalStep_facts g cid now res db r

theorem evalRulesAux_nextId_le (g : String → Option String) (cid : String)
    (now : Int) :
    ∀ (rules : List Rule) (acc : EvalResults × DB),
      acc.2.nextId ≤ (evalRulesAux g cid now rules acc).2.nextId := by
  intro rules
  induction rules with
  | nil => intro acc; exact le_refl _
  | cons r rest ih =>
    intro acc
    rw [evalRulesAux_cons]
    refine le_trans ?_ (ih (evalStep g cid now acc r))
    obtain ⟨res, db⟩ := acc
    exact evalStep_nextId_le g cid now res db r

/-- One step preserves the tracking invariant for a non-active row:
the row survives untouched, stays the unique row with its id, and its id
stays below the fresh-id counter. -/
theorem evalStep_track {g : String → Option String} {cid : String}
    {now : Int} {res : EvalResults} {db : DB} {r : Rule} {p : PromptRow}
    (hstat : p.status ≠ PStatus.active)
    (hmem : p ∈ db.prompts)
    (huniq : ∀ q ∈ db.prompts, q.id = p.id → q = p)
    (hid : p.id < db.nextId) :
    p ∈ (evalStep g cid now (res, db) r).2.prompts ∧
    (∀ q ∈ (evalStep g cid now (res, db) r).2.prompts, q.id = p.id → q = p) ∧
    p.id < (evalStep g cid now (res, db) r).2.nextId := by
  rcases evalStep_cases g cid now res db r with
    he | he | ⟨_, _, he⟩ | ⟨_, _, _, he⟩ | ⟨_, _, _, he⟩ <;> rw [he]
  · exact ⟨hmem, huniq, hid⟩
  · exact ⟨hmem, huniq, hid⟩
  · rw [show ((resolve_prompt db cid r.id now).2.nextId) = db.nextId from rfl]
    rw [resolve_prompt_prompts]
    refine ⟨?_, ?_, hid⟩
    · exact List.mem_map.2 ⟨p, hmem, resolveMark_of_not_active hstat⟩
    · intro q hq hqid
      rcases List.mem_map.1 hq with ⟨q0, hq0, rfl⟩
      rw [resolveMark_id] at hqid
      rw [huniq q0 hq0 hqid]
      exact resolveMark_of_not_active hstat
  · exact ⟨hmem, huniq, hid⟩
  · refine ⟨List.mem_append_left _ hmem, ?_, by simp; omega⟩
    intro q hq hqid
    rcases List.mem_append.1 hq with hq1 | hq2
    · exact huniq q hq1 hqid
    · exfalso
      rw [List.mem_singleton.1 hq2] at hqid
      rw [show (newPromptRow db cid r (missingOf g r) now).id = db.nextId
        from rfl] at hqid
      omega

theorem evalRulesAux_track {g : String → Option String} {cid : String}
    {now : Int} {p : PromptRow} (hstat : p.status ≠ PStatus.active) :
    ∀ (rules : List Rule) (acc : EvalResults × DB),
      p ∈ acc.2.prompts →
      (∀ q ∈ acc.2.prompts, q.id = p.id → q = p) →
      p.id < acc.2.nextId →
      p ∈ (evalRulesAux g cid now rules acc).2.prompts ∧
      (∀ q ∈ (evalRulesAux g cid now rules acc).2.prompts,
        q.id = p.id → q = p) ∧
      p.id < (evalRulesAux g cid now rules acc).2.nextId := by
  intro rules
  induction rules with
  | nil => intro acc h1 h2 h3; exact ⟨h1, h2, h3⟩
  | cons r rest ih =>
    intro acc h1 h2 h3
    rw [evalRulesAux_cons]
    obtain ⟨res, db⟩ := acc
    obtain ⟨h1', h2', h3'⟩ := evalStep_track hstat h1 h2 h3
    exact ih (evalStep g cid now (res, db) r) h1' h2' h3'

/-! ## The at-most-one-active invariant -/

/-- No two rows of the prompt table are simultaneously `active` for the
same `(case_id, rule_id)` pair. -/
def ActiveUnique (ps : List PromptRow) : Prop :=
  ps.Pairwise fun p q =>
    p.status = PStatus.active → q.status = PStatus.active →
    p.case_id = q.case_id → p.rule_id = q.rule_id → False

theorem ActiveUnique.map_nonactivating {ps : List PromptRow}
    {f : PromptRow → PromptRow}
    (hf : ∀ p, (f p).status = PStatus.active → f p = p)
    (h : ActiveUnique ps) : ActiveUnique (ps.map f) := by
  refine List.Pairwise.map f ?_ h
  intro a b hab h1 h2 h3 h4
  have ha' := hf a h1
  have hb' := hf b h2
  rw [ha'] at h1 h3 h4
  rw [hb'] at h2 h3 h4
  exact hab h1 h2 h3 h4

theorem ActiveUnique.append_new {ps : List PromptRow} {q : PromptRow}
    (h : ActiveUnique ps)
    (hq : ∀ p ∈ ps, p.status = PStatus.active → q.status = PStatus.active →
      p.case_id = q.case_id → p.rule_id = q.rule_id → False) :
    ActiveUnique (ps ++ [q]) := by
  rw [ActiveUnique, List.pairwise_append]
  refine ⟨h, List.pairwise_singleton _ _, ?_⟩
  intro p hp r hr
  rw [List.mem_singleton.1 hr]
  exact hq p hp

theorem evalStep_ActiveUnique {g : String → Option String} {cid : String}
    {now : Int} {res : EvalResults} {db : DB} {r : Rule}
    (h : ActiveUnique db.prompts) :
    ActiveUnique (evalStep g cid now (res, db) r).2.prompts := by
  rcases evalStep_cases g cid now res db r with
    he | he | ⟨_, _, he⟩ | ⟨_, _, _, he⟩ | ⟨_, _, ha, he⟩ <;> rw [he]
  · exact h
  · exact h
  · rw [resolve_prompt_prompts]
    exact h.map_nonactivating (fun p hp => resolveMark_active hp)
  · exact h
  · refine h.append_new ?_
    intro p hp h1 h2 h3 h4
    have hnew := newPromptRow_fields db cid r (missingOf g r) now
    rw [hnew.2.1] at h3
    rw [hnew.2.2.1] at h4
    exact absurd (hasActivePrompt_iff.2 ⟨p, hp, h3, h4, h1⟩) (by simp [ha])

theorem evalRulesAux_ActiveUnique {g : String → Option String}
    {cid : String} {now : Int} :
    ∀ (rules : List Rule) (acc : EvalResults × DB),
      ActiveUnique acc.2.prompts →
      ActiveUnique (evalRulesAux g cid now rules acc).2.prompts := by
  intro rules
  induction rules with
  | nil => intro acc h; exact h
  | cons r rest ih =>
    intro acc h
    rw [evalRulesAux_cons]
    obtain ⟨res, db⟩ := acc
    exact ih _ (evalStep_ActiveUnique h)

/-! ## Violated rules leave an active prompt; a standing active prompt
makes re-creation a no-op -/

theorem evalStep_self_active {g : String → Option String} {cid : String}
    {now : Int} {res : EvalResults} {db : DB} {r : Rule}
    (happ : applicable g r) (hviol : missingOf g r ≠ []) :
    hasActivePrompt (evalStep g cid now (res, db) r).2.prompts cid r.id
      = true := by
  rw [evalStep_of_applicable happ]
  by_cases ha : hasActivePrompt db.prompts cid r.id = true
  · rw [evalRuleBody_violated_found hviol ha]
    exact ha
  · rw [evalRuleBody_violated_new hviol (Bool.eq_false_iff.2 ha)]
    rw [show ({ db with
        prompts := db.prompts ++ [newPromptRow db cid r (missingOf g r) now]
        nextId := db.nextId + 1 } : DB).prompts
      = db.prompts ++ [newPromptRow db cid r (missingOf g r) now] from rfl]
    rw [hasActive_append]
    have hnew := newPromptRow_fields db cid r (missingOf g r) now
    rw [show decide ((newPromptRow db cid r (missingOf g r) now).case_id = cid ∧
        (newPromptRow db cid r (missingOf g r) now).rule_id = r.id ∧
        (newPromptRow db cid r (missingOf g r) now).status = PStatus.active)
        = true from by simp [hnew.2.1, hnew.2.2.1, hnew.2.2.2]]
    exact Bool.or_true _

theorem evalStep_self_resolved {g : String → Option String} {cid : String}
    {now : Int} {res : EvalResults} {db : DB} {r : Rule}
    (happ : applicable g r) (hsat : missingOf g r = []) :
    hasActivePrompt (evalStep g cid now (res, db) r).2.prompts cid r.id
      = false := by
  rw [evalStep_of_applicable happ, evalRuleBody_satisfied hsat]
  rw [resolve_prompt_prompts]
  rw [hasActivePrompt_eq_false]
  intro q hq h1 h2 h3
  rcases List.mem_map.1 hq with ⟨p, hp, rfl⟩
  have heq : resolveMark cid r.id now p = p := resolveMark_active h3
  rw [heq] at h1 h2 h3
  have : resolveMark cid r.id now p =
      { p with status := PStatus.resolved
               resolution_type := some ResolutionType.fact_added
               resolved_at := some now
               updatedAt := now } := by
    unfold resolveMark
    rw [if_pos ⟨h1, h2, h3⟩]
  rw [heq] at this
  have hst := congrArg PromptRow.status this
  simp at hst
  rw [hst] at h3
  exact absurd h3 (by simp)

/-- After an evaluation pass, every applicable violated rule has an
active prompt (Lemma A for idempotence). -/
theorem evalRulesAux_violated_active {g : String → Option String}
    {cid : String} {now : Int} :
    ∀ (rules : List Rule) (acc : EvalResults × DB),
      (rules.map Rule.id).Nodup →
      ∀ r ∈ rules, applicable g r → missingOf g r ≠ [] →
      hasActivePrompt (evalRulesAux g cid now rules acc).2.prompts cid r.id
        = true := by
  intro rules
  induction rules with
  | nil => intro acc _ r hr; simp at hr
  | cons r0 rest ih =>
    intro acc hnd r hr happ hviol
    rw [List.map_cons, List.nodup_cons] at hnd
    rw [evalRulesAux_cons]
    rcases List.mem_cons.1 hr with rfl | hrest
    · rw [evalRulesAux_hasActive_ne rest (evalStep g cid now acc r) ?hne]
      case hne =>
        intro r2 h2 he
        exact hnd.1 (he ▸ List.mem_map_of_mem Rule.id h2)
      obtain ⟨res, db⟩ := acc
      exact evalStep_self_active happ hviol
    · exact ih _ hnd.2 r hrest happ hviol

/-- When every applicable violated rule already has an active prompt,
an evaluation pass creates no prompt (Lemma B for idempotence). -/
theorem evalRulesAux_created_stable {g : String → Option String}
    {cid : String} {now : Int} :
    ∀ (rules : List Rule) (res : EvalResults) (db : DB),
      (rules.map Rule.id).Nodup →
      (∀ r ∈ rules, applicable g r → missingOf g r ≠ [] →
        hasActivePrompt db.prompts cid r.id = true) →
      (evalRulesAux g cid now rules (res, db)).1.prompts_created
        = res.prompts_created := by
  intro rules
  induction rules with
  | nil => intro res db _ _; rfl
  | cons r0 rest ih =>
    intro res db hnd hact
    rw [List.map_cons, List.nodup_cons] at hnd
    rw [evalRulesAux_cons]
    have hpreserve : ∀ r ∈ rest, r.id ≠ r0.id := by
      intro r2 h2 he
      exact hnd.1 (he ▸ List.mem_map_of_mem Rule.id h2)
    rcases evalStep_cases g cid now res db r0 with
      he | he | ⟨happ, hm, he⟩ | ⟨happ, hm, ha, he⟩ | ⟨happ, hm, ha, he⟩
    · rw [he]
      exact ih _ db hnd.2
        (fun r h2 ha2 hv2 => hact r (List.mem_cons_of_mem _ h2) ha2 hv2)
    · rw [he]
      exact ih _ db hnd.2
        (fun r h2 ha2 hv2 => hact r (List.mem_cons_of_mem _ h2) ha2 hv2)
    · rw [he]
      have hdb2 : (evalStep g cid now (res, db) r0).2
          = (resolve_prompt db cid r0.id now).2 := by rw [he]
      rw [ih _ _ hnd.2 ?hrest]
      case hrest =>
        intro r h2 ha2 hv2
        have hprev := hact r (List.mem_cons_of_mem _ h2) ha2 hv2
        have hstep := @evalStep_hasActive_ne g cid now res db r0 r.id
          (hpreserve r h2)
        rw [he] at hstep
        rw [hstep]
        exact hprev
    · rw [he]
      exact ih _ db hnd.2
        (fun r h2 ha2 hv2 => hact r (List.mem_cons_of_mem _ h2) ha2 hv2)
    · exfalso
      have := hact r0 (List.mem_cons_self _ _) happ hm
      rw [this] at ha
      exact absurd ha (by simp)

theorem runPromptUpdate_ActiveUnique {db : DB} {pid : Nat} {a : String}
    {f : PromptRow → PromptRow}
    (hf : ∀ p, (f p).status ≠ PStatus.active)
    (h : ActiveUnique db.prompts) :
    ActiveUnique (runPromptUpdate db pid a f).2.prompts := by
  unfold runPromptUpdate
  split
  · refine h.map_nonactivating ?_
    intro p hp
    by_cases hid : p.id = pid
    · rw [if_pos hid] at hp
      exact absurd hp (hf p)
    · rw [if_neg hid]
  · exact h

theorem execute_prompt_action_ActiveUnique {db : DB} {pid : Nat}
    {a : String} {note rb : Option String} {now : Int}
    (h : ActiveUnique db.prompts) :
    ActiveUnique (execute_prompt_action db pid a note rb now).2.prompts := by
  unfold execute_prompt_action
  dsimp only
  split
  · exact runPromptUpdate_ActiveUnique (fun p => by simp) h
  · split
    · exact runPromptUpdate_ActiveUnique (fun p => by simp) h
    · split
      · exact runPromptUpdate_ActiveUnique (fun p => by simp) h
      · exact h

/-- Empty database. -/
def db_empty : DB := { facts := [], prompts := [], nextId := 0 }

/-- A case with one standing active prompt for `PAD_002_LATERALITY`. -/
def dbC1w : DB :=
  { facts := []
    prompts := [{ id := 4, case_id := "c", rule_id := "PAD_002_LATERALITY"
                  status := PStatus.active, severity := Severity.block
                  message := "m", details := "d", guideline_ref := none
                  action_choices := "a", snoozed_until := none
                  first_surfaced_at := 0, view_count := 0, snooze_count := 0
                  resolution_type := none, resolution_note := none
                  resolved_by := none, resolved_at := none, createdAt := 0
                  updatedAt := 0 }]
    nextId := 5 }

/-- C1: `_create_or_update_prompt` is a no-op returning `false` whenever
an active prompt for the `(case_id, rule_id)` pair already exists; both
`evaluate_pad_rules` and `execute_prompt_action` preserve the
at-most-one-active-prompt-per-pair invariant; and a second evaluation
run on an unchanged fact snapshot creates zero new prompts. -/
theorem claim_C1 :
    (∀ (db : DB) (case_id : String) (rule : Rule) (missing : List String)
        (now : Int),
      hasActivePrompt db.prompts case_id rule.id = true →
      create_or_update_prompt db case_id rule missing now = (false, db))
    ∧ (∀ (db : DB) (case_id : String) (now : Int),
        ActiveUnique db.prompts →
        ActiveUnique (evaluate_pad_rules db case_id now).2.prompts)
    ∧ (∀ (db : DB) (pid : Nat) (a : String) (note rb : Option String)
        (now : Int),
        ActiveUnique db.prompts →
        ActiveUnique (execute_prompt_action db pid a note rb now).2.prompts)
    ∧ (∀ (db : DB) (case_id : String) (now now2 : Int),
        (evaluate_pad_rules (evaluate_pad_rules db case_id now).2 case_id
          now2).1.prompts_created = 0) := by
  refine ⟨?_, ?_, ?_, ?_⟩
  · intro db case_id rule missing now h
    exact create_found h
  · intro db case_id now h
    exact evalRulesAux_ActiveUnique PAD_RULES (initResults, db) h
  · intro db pid a note rb now h
    exact execute_prompt_action_ActiveUnique h
  · intro db case_id now now2
    unfold evaluate_pad_rules eval_rules
    have hnd : (PAD_RULES.map Rule.id).Nodup := by decide
    have hfacts :
        (evalRulesAux (snap db.facts case_id) case_id now PAD_RULES
          (initResults, db)).2.facts = db.facts :=
      evalRulesAux_facts _ _ _ _ _
    rw [hfacts]
    refine evalRulesAux_created_stable PAD_RULES initResults _ hnd ?_
    intro r hr happ hviol
    exact evalRulesAux_violated_active PAD_RULES (initResults, db) hnd r hr
      happ hviol

/-- Witness for C1: a standing active prompt makes re-creation a no-op,
and re-evaluating an evaluated empty case creates nothing. -/
theorem claim_C1_witness :
    create_or_update_prompt dbC1w "c" pad_002 ["laterality"] 3 = (false, dbC1w)
    ∧ ActiveUnique (evaluate_pad_rules db_empty "c" 0).2.prompts
    ∧ (evaluate_pad_rules (evaluate_pad_rules db_empty "c" 0).2 "c"
        1).1.prompts_created = 0 :=
  ⟨claim_C1.1 dbC1w "c" pad_002 ["laterality"] 3 (by decide),
   claim_C1.2.1 db_empty "c" 0 (by simp [ActiveUnique, db_empty]),
   claim_C1.2.2.2 db_empty "c" 0 1⟩

/-! ## C6: raising rule conditions -/

/-- A rule whose condition predicate always raises. -/
def bad_rule : Rule :=
  { id := "BAD_RULE"
    name := "bad"
    description := ""
    severity := Severity.warn
    condition := some fun _ => Except.error ()
    required_facts := ["x"]
    alternative_facts := none
    message := "m"
    guideline_ref := none }

/-- Counterexample to C6 as stated: a rule whose condition raises is NOT
recorded in the `passed` list — the loop `continue`s without appending
(the rule is still counted in `rules_evaluated`, no prompt is created and
the state is unchanged). -/
theorem claim_C6_counterexample :
    bad_rule.id ∉ (eval_rules [bad_rule] db_empty "c" 0).1.passed
    ∧ (eval_rules [bad_rule] db_empty "c" 0).1.passed = []
    ∧ (eval_rules [bad_rule] db_empty "c" 0).1.rules_evaluated = 1
    ∧ (eval_rules [bad_rule] db_empty "c" 0).1.prompts_created = 0
    ∧ (eval_rules [bad_rule] db_empty "c" 0).2 = db_empty := by
  decide

/-- C6 (amended): a rule whose condition predicate raises is skipped for
the round — the loop counts it in `rules_evaluated` but creates no
prompt, changes nothing in the database, does NOT record the rule in the
`passed` list, and continues with the remaining rules; no exception
propagates (the step is a total function of the state). -/
theorem claim_C6 (g : String → Option String) (case_id : String)
    (now : Int) (r : Rule) (rest : List Rule) (res : EvalResults) (db : DB)
    (c : (String → Option String) → Except Unit Bool)
    (hc : r.condition = some c) (hg : c g = Except.error ()) :
    evalRulesAux g case_id now (r :: rest) (res, db)
      = evalRulesAux g case_id now rest
          ({ res with rules_evaluated := res.rules_evaluated + 1 }, db) := by
  rw [evalRulesAux_cons, evalStep_cond_error hc hg]

/-- Witness for C6 at a concrete raising rule: the skipped step
continues into the rest of the rule list with only the counter bumped. -/
theorem claim_C6_witness :
    evalRulesAux (snap db_empty.facts "c") "c" 0 (bad_rule :: [pad_002])
        (initResults, db_empty)
      = evalRulesAux (snap db_empty.facts "c") "c" 0 [pad_002]
          ({ initResults with rules_evaluated := 1 }, db_empty) :=
  claim_C6 (snap db_empty.facts "c") "c" 0 bad_rule [pad_002] initResults
    db_empty (fun _ => Except.error ()) rfl rfl

/-! ## C7: supersede_fact failure semantics -/

/-- Counterexample to C7 as stated: superseding a fact id that does not
exist still returns `true` — the `UPDATE` has no affected-row check, so
only a storage error yields `false`. -/
theorem claim_C7_counterexample :
    db_empty.facts = []
    ∧ (supersede_fact true db_empty 42 none 5).1 = true := by
  exact ⟨rfl, rfl⟩

/-- C7 (amended): `supersede_fact` returns `false` exactly when the
storage layer fails (rolling back, leaving the ledger unchanged), and
never raises; on a successful commit it returns `true` even when no fact
with the given id exists (zero-row update, ledger unchanged); when rows
match, they are marked via `superseded_by`/`superseded_at` without being
deleted. -/
theorem claim_C7 (storage_ok : Bool) (db : DB) (fact_id : Nat)
    (new_fact_id : Option Nat) (now : Int) :
    (storage_ok = false →
      supersede_fact storage_ok db fact_id new_fact_id now = (false, db))
    ∧ (storage_ok = true →
        (supersede_fact storage_ok db fact_id new_fact_id now).1 = true
        ∧ (supersede_fact storage_ok db fact_id new_fact_id now).2.facts
            = db.facts.map fun f =>
                if f.id = fact_id then
                  { f with superseded_by := new_fact_id
                           superseded_at := some now
                           updatedAt := now }
                else f)
    ∧ ((∀ f ∈ db.facts, f.id ≠ fact_id) →
        (supersede_fact storage_ok db fact_id new_fact_id now)
          = (storage_ok, db)) := by
  refine ⟨?_, ?_, ?_⟩
  · intro h
    rw [h]
    rfl
  · intro h
    rw [h]
    exact ⟨rfl, rfl⟩
  · intro hnone
    cases storage_ok
    · rfl
    · unfold supersede_fact
      rw [if_pos rfl]
      have hmap : (db.facts.map fun f =>
          if f.id = fact_id then
            { f with superseded_by := new_fact_id, superseded_at := some now
                     updatedAt := now }
          else f) = db.facts := by
        have hcongr : ∀ f ∈ db.facts,
            (if f.id = fact_id then
              ({ f with superseded_by := new_fact_id
                        superseded_at := some now
                        updatedAt := now } : FactRow)
             else f) = f := by
          intro f hf
          rw [if_neg (hnone f hf)]
        calc (db.facts.map _) = db.facts.map id := List.map_congr_left hcongr
          _ = db.facts := List.map_id _
      rw [hmap]

/-- A one-row ledger whose only fact has id 1. -/
def dbC7w : DB :=
  { facts := [{ id := 1, case_id := "c", patient_id := none
                fact_type := "laterality", value_json := some "left"
                confidence := some 1, source_type := "manual"
                voice_note_id := none, source_ref := none, verified := false
                verified_by := none, verified_at := none
                superseded_by := none, superseded_at := none
                createdAt := 0, updatedAt := 0 }]
    prompts := [], nextId := 2 }

/-- Witness for C7: a committed update that matches no row returns
`true` and leaves the ledger unchanged. -/
theorem claim_C7_witness :
    supersede_fact true dbC7w 9 none 5 = (true, dbC7w) :=
  (claim_C7 true dbC7w 9 none 5).2.2 (by decide)

/-! ## C10: the SNOOZE prefix family of prompt actions -/

theorem runPromptUpdate_ne_unknown (db : DB) (pid : Nat) (a : String)
    (f : PromptRow → PromptRow) :
    (runPromptUpdate db pid a f).1 ≠ ActionOutcome.unknownAction := by
  unfold runPromptUpdate
  split
  · simp
  · simp

/-- C10: any action whose upper-cased form starts with `SNOOZE` is
accepted and moves the row with the given id to `snoozed` while bumping
its `snooze_count`; when the action string has no underscore or the
`_<N>H` segment does not parse as an int, the duration falls back to 24
hours; and the handler rejects an action as unknown exactly when it is
none of `DISMISS`, `DOCUMENT`, `RESOLVE` or `SNOOZE*`. -/
theorem claim_C10 (db : DB) (prompt_id : Nat) (action_id : String)
    (note resolved_by : Option String) (now : Int) :
    (pyStartsWith (pyUpper action_id) "SNOOZE" = true →
      (∃ p ∈ db.prompts, p.id = prompt_id) →
      execute_prompt_action db prompt_id action_id note resolved_by now
        = (ActionOutcome.ok (pyUpper action_id),
           { db with prompts := db.prompts.map fun p =>
               if p.id = prompt_id then
                 { p with status := PStatus.snoozed
                          snoozed_until := some (now +
                            parse_snooze_hours (pyUpper action_id))
                          snooze_count := p.snooze_count + 1
                          updatedAt := now }
               else p }))
    ∧ (∀ s : String,
        s.data.contains '_' = false ∨
          pyIntParse (dropH ((splitUnderscore s.data).getD 1 [])) = none →
        parse_snooze_hours s = 24)
    ∧ ((execute_prompt_action db prompt_id action_id note resolved_by
          now).1 = ActionOutcome.unknownAction ↔
        (pyUpper action_id ≠ "DISMISS" ∧ pyUpper action_id ≠ "DOCUMENT" ∧
          pyUpper action_id ≠ "RESOLVE" ∧
          pyStartsWith (pyUpper action_id) "SNOOZE" = false)) := by
  refine ⟨?_, ?_, ?_⟩
  · intro hsw hex
    have hne : pyUpper action_id ≠ "DISMISS" := by
      intro he
      rw [he] at hsw
      exact absurd hsw (by decide)
    unfold execute_prompt_action
    dsimp only
    rw [if_neg hne, if_pos hsw]
    unfold runPromptUpdate
    rw [if_pos ?hany]
    case hany =>
      obtain ⟨p, hp, hpid⟩ := hex
      exact List.any_eq_true.2 ⟨p, hp, decide_eq_true hpid⟩
  · intro s h
    unfold parse_snooze_hours
    rcases h with h | h
    · rw [if_neg (by rw [h]; simp)]
    · by_cases hc : s.data.contains '_' = true
      · rw [if_pos hc, h]
      · rw [if_neg hc]
  · unfold execute_prompt_action
    dsimp only
    split_ifs with h1 h2 h3
    · exact ⟨fun habs => absurd habs (runPromptUpdate_ne_unknown _ _ _ _),
        fun hc => absurd h1 hc.1⟩
    · refine ⟨fun habs => absurd habs (runPromptUpdate_ne_unknown _ _ _ _),
        fun hc => ?_⟩
      rw [h2] at hc
      exact absurd hc.2.2.2 (by simp)
    · refine ⟨fun habs => absurd habs (runPromptUpdate_ne_unknown _ _ _ _),
        fun hc => ?_⟩
      rcases h3 with h3 | h3
      · exact absurd h3 hc.2.1
      · exact absurd h3 hc.2.2.1
    · refine iff_of_true rfl ⟨h1, ?_, ?_, ?_⟩
      · intro hd
        exact h3 (Or.inl hd)
      · intro hr
        exact h3 (Or.inr hr)
      · exact Bool.eq_false_iff.2 h2

/-- A case with one active prompt, id 1. -/
def dbC10w : DB :=
  { facts := []
    prompts := [{ id := 1, case_id := "c", rule_id := "PAD_006_TARGET_VESSEL"
                  status := PStatus.active, severity := Severity.block
                  message := "m", details := "d", guideline_ref := none
                  action_choices := "a", snoozed_until := none
                  first_surfaced_at := 0, view_count := 0, snooze_count := 2
                  resolution_type := none, resolution_note := none
                  resolved_by := none, resolved_at := none, createdAt := 0
                  updatedAt := 0 }]
    nextId := 2 }

/-- Witness for C10: a lower-case `snooze_48h` action snoozes the prompt
and `SNOOZE_TOMORROW` falls back to the 24-hour default. -/
theorem claim_C10_witness :
    execute_prompt_action dbC10w 1 "snooze_48h" none none 10
      = (ActionOutcome.ok (pyUpper "snooze_48h"),
         { dbC10w with prompts := dbC10w.prompts.map fun p =>
             if p.id = 1 then
               { p with status := PStatus.snoozed
                        snoozed_until := some (10 +
                          parse_snooze_hours (pyUpper "snooze_48h"))
                        snooze_count := p.snooze_count + 1
                        updatedAt := 10 }
             else p })
    ∧ parse_snooze_hours "SNOOZE_TOMORROW" = 24 :=
  ⟨(claim_C10 dbC10w 1 "snooze_48h" none none 10).1 (by decide) (by decide),
   (claim_C10 dbC10w 1 "snooze_48h" none none 10).2.1 "SNOOZE_TOMORROW"
     (Or.inr (by decide))⟩

/-! ## C8: batch insertion tolerates per-item failures -/

/-- Pair each batch entry with its position, starting at `i`. -/
def idxFrom (i : Nat) : List FactSpec → List (Nat × FactSpec)
  | [] => []
  | f :: t => (i, f) :: idxFrom (i + 1) t

theorem add_facts_batch_go_spec (oracle : Nat → Bool) (case_id : String)
    (vnid pid : Option String) (now : Int) :
    ∀ (facts : List FactSpec) (i : Nat) (db : DB),
      ((add_facts_batch_go oracle case_id vnid pid now i db facts).1.map
          fun rec => (rec.fact_type, rec.value))
        = (((idxFrom i facts).filter fun q => oracle q.1).map
            fun q => (q.2.fact_type, some q.2.value))
      ∧ ∃ new,
          (add_facts_batch_go oracle case_id vnid pid now i db
            facts).2.facts = db.facts ++ new
          ∧ new.length =
              (add_facts_batch_go oracle case_id vnid pid now i db
                facts).1.length := by
  intro facts
  induction facts with
  | nil =>
    intro i db
    refine ⟨?_, [], ?_, ?_⟩ <;> simp [add_facts_batch_go, idxFrom]
  | cons f rest ih =>
    intro i db
    by_cases ho : oracle i = true
    · set row : FactRow := newFactRow db case_id pid f.fact_type f.value
        (f.confidence.getD 1) "voice_note" vnid f.source_ref now with hrow
      set db3 : DB :=
        { db with facts := db.facts ++ [row], nextId := db.nextId + 1 }
        with hdb3
      have hadd : add_fact (oracle i) db case_id pid f.fact_type f.value
          (f.confidence.getD 1) "voice_note" vnid f.source_ref now
          = Except.ok
              ({ id := db.nextId, fact_type := f.fact_type
                 value := some f.value
                 confidence := some (f.confidence.getD 1)
                 created_at := now }, db3) := by
        rw [ho]
        rfl
      unfold add_facts_batch_go
      rw [hadd]
      dsimp only
      obtain ⟨ih1, new, ih2, ih3⟩ := ih (i + 1) db3
      rcases hrest : add_facts_batch_go oracle case_id vnid pid now (i + 1)
          db3 rest with ⟨rs, db2⟩
      rw [hrest] at ih1 ih2 ih3
      dsimp only at ih1 ih2 ih3 ⊢
      constructor
      · rw [List.map_cons, ih1]
        rw [show idxFrom i (f :: rest) = (i, f) :: idxFrom (i + 1) rest
          from rfl]
        rw [List.filter_cons_of_pos (by simpa using ho)]
        rfl
      · refine ⟨row :: new, ?_, ?_⟩
        · rw [ih2, List.append_assoc]
          rfl
        · rw [List.length_cons, ih3, List.length_cons]
    · have ho2 : oracle i = false := Bool.eq_false_iff.2 ho
      have hadd : add_fact (oracle i) db case_id pid f.fact_type f.value
          (f.confidence.getD 1) "voice_note" vnid f.source_ref now
          = Except.error "Failed to add fact" := by
        rw [ho2]
        rfl
      unfold add_facts_batch_go
      rw [hadd]
      dsimp only
      obtain ⟨ih1, new, ih2, ih3⟩ := ih (i + 1) db
      refine ⟨?_, new, ih2, ih3⟩
      rw [ih1]
      rw [show idxFrom i (f :: rest) = (i, f) :: idxFrom (i + 1) rest
        from rfl]
      rw [List.filter_cons_of_neg (by simpa using ho2)]

/-- C8: one failed insert is skipped without aborting the batch — every
entry is attempted at its own position, the returned list is exactly the
successfully inserted facts in submission order, and only those rows are
appended to the ledger; no exception reaches the caller (the operation
is a total function of the state). -/
theorem claim_C8 (oracle : Nat → Bool) (db : DB) (case_id : String)
    (facts : List FactSpec) (vnid pid : Option String) (now : Int) :
    ((add_facts_batch oracle db case_id facts vnid pid now).1.map
        fun rec => (rec.fact_type, rec.value))
      = (((idxFrom 0 facts).filter fun q => oracle q.1).map
          fun q => (q.2.fact_type, some q.2.value))
    ∧ ∃ new,
        (add_facts_batch oracle db case_id facts vnid pid now).2.facts
          = db.facts ++ new
        ∧ new.length =
            (add_facts_batch oracle db case_id facts vnid pid now).1.length :=
  add_facts_batch_go_spec oracle case_id vnid pid now facts 0 db

/-! ## C4 and C5: terminal and snoozed prompts under re-evaluation -/

theorem pad_002_mem : pad_002 ∈ PAD_RULES := by
  unfold PAD_RULES
  exact List.Mem.tail _ (List.Mem.head _)

/-- A resolved (terminal) prompt for `(c, PAD_002_LATERALITY)`. -/
def pC4 : PromptRow :=
  { id := 7, case_id := "c", rule_id := "PAD_002_LATERALITY"
    status := PStatus.resolved, severity := Severity.block
    message := "m", details := "d", guideline_ref := none
    action_choices := "a", snoozed_until := none
    first_surfaced_at := 0, view_count := 0, snooze_count := 0
    resolution_type := some ResolutionType.fact_added
    resolution_note := none, resolved_by := none, resolved_at := some 1
    createdAt := 0, updatedAt := 1 }

/-- A case whose only prompt is the terminal `pC4`. -/
def dbC4 : DB := { facts := [], prompts := [pC4], nextId := 8 }

/-- Counterexample to C4 as stated: the prompt-action entry point has no
status guard, so a `SNOOZE` (or `DISMISS`) action mutates a `resolved`
prompt's status. -/
theorem claim_C4_counterexample :
    (dbC4.prompts.map fun p => p.status) = [PStatus.resolved]
    ∧ ((execute_prompt_action dbC4 7 "SNOOZE_24H" none none 50).2.prompts.map
        fun p => p.status) = [PStatus.snoozed]
    ∧ ((execute_prompt_action dbC4 7 "DISMISS" none none 50).2.prompts.map
        fun p => p.status) = [PStatus.dismissed] := by
  decide

/-- C4 (amended): `evaluate_pad_rules` never touches a terminal
(`resolved` or `dismissed`) prompt row — the row survives verbatim and
stays the unique row with its id — and a recurring violation of a rule
yields an active prompt row distinct from the terminal one.  The
prompt-action entry point, by contrast, updates a row by id with no
status guard, so it can change a terminal prompt's status (see the
counterexample). -/
theorem claim_C4 (db : DB) (case_id : String) (now : Int) (p : PromptRow)
    (R : Rule)
    (hterm : p.status = PStatus.resolved ∨ p.status = PStatus.dismissed)
    (hmem : p ∈ db.prompts)
    (huniq : ∀ q ∈ db.prompts, q.id = p.id → q = p)
    (hid : p.id < db.nextId)
    (hR : R ∈ PAD_RULES)
    (happ : applicable (snap db.facts case_id) R)
    (hviol : missingOf (snap db.facts case_id) R ≠ []) :
    (p ∈ (evaluate_pad_rules db case_id now).2.prompts
      ∧ ∀ q ∈ (evaluate_pad_rules db case_id now).2.prompts,
          q.id = p.id → q = p)
    ∧ ∃ q ∈ (evaluate_pad_rules db case_id now).2.prompts,
        q.status = PStatus.active ∧ q.case_id = case_id ∧
        q.rule_id = R.id ∧ q ≠ p := by
  have hstat : p.status ≠ PStatus.active := by
    rcases hterm with h | h <;> rw [h] <;> simp
  obtain ⟨h1, h2, _⟩ :=
    @evalRulesAux_track (snap db.facts case_id) case_id now p hstat
      PAD_RULES (initResults, db) hmem huniq hid
  have hact :=
    @evalRulesAux_violated_active (snap db.facts case_id) case_id now
      PAD_RULES (initResults, db) (by decide) R hR happ hviol
  rcases hasActivePrompt_iff.1 hact with ⟨q, hq, hq1, hq2, hq3⟩
  refine ⟨⟨h1, h2⟩, q, hq, hq3, hq1, hq2, ?_⟩
  intro he
  rw [he] at hq3
  exact hstat hq3

/-- Witness for C4 at a concrete state: re-evaluating a case with a
terminal prompt and a still-missing `laterality` fact keeps the terminal
row untouched and surfaces a distinct active row. -/
theorem claim_C4_witness :
    (pC4 ∈ (evaluate_pad_rules dbC4 "c" 9).2.prompts
      ∧ ∀ q ∈ (evaluate_pad_rules dbC4 "c" 9).2.prompts,
          q.id = pC4.id → q = pC4)
    ∧ ∃ q ∈ (evaluate_pad_rules dbC4 "c" 9).2.prompts,
        q.status = PStatus.active ∧ q.case_id = "c" ∧
        q.rule_id = pad_002.id ∧ q ≠ pC4 :=
  claim_C4 dbC4 "c" 9 pC4 pad_002 (Or.inl rfl) (by decide) (by decide)
    (by decide) pad_002_mem (Or.inl rfl) (by decide)

/-- A snoozed prompt for `(c, PAD_002_LATERALITY)` with `snoozed_until`
far in the future. -/
def pC5 : PromptRow :=
  { id := 3, case_id := "c", rule_id := "PAD_002_LATERALITY"
    status := PStatus.snoozed, severity := Severity.block
    message := "m", details := "d", guideline_ref := none
    action_choices := "a", snoozed_until := some 1000
    first_surfaced_at := 0, view_count := 0, snooze_count := 1
    resolution_type := none, resolution_note := none, resolved_by := none
    resolved_at := none, createdAt := 0, updatedAt := 0 }

/-- A case whose only prompt is the snoozed `pC5` and which still lacks
the `laterality` fact. -/
def dbC5 : DB := { facts := [], prompts := [pC5], nextId := 4 }

/-- Counterexample to C5 as stated: with the snooze window still open
(`now = 0 < 1000 = snoozed_until`), `evaluate_pad_rules` inserts a fresh
`active` prompt for the same `(case_id, rule_id)` — the snoozed row does
not suppress re-surfacing. -/
theorem claim_C5_counterexample :
    ((0 : Int) < 1000)
    ∧ (dbC5.prompts.map fun p => (p.status, p.snoozed_until))
        = [(PStatus.snoozed, some 1000)]
    ∧ hasActivePrompt (evaluate_pad_rules dbC5 "c" 0).2.prompts "c"
        "PAD_002_LATERALITY" = true := by
  decide

/-- C5 (amended): while a prompt for `(case_id, rule_id)` is snoozed,
`evaluate_pad_rules` never mutates the snoozed row itself; but because
`_create_or_update_prompt` only checks for an `active` row, a still
violated rule gets a brand-new active prompt row inserted immediately,
even though `snoozed_until` has not elapsed. -/
theorem claim_C5 (db : DB) (case_id : String) (now : Int) (p : PromptRow)
    (R : Rule) (t : Int)
    (hsn : p.status = PStatus.snoozed)
    (hsu : p.snoozed_until = some t)
    (hnot_elapsed : now < t)
    (hmem : p ∈ db.prompts)
    (huniq : ∀ q ∈ db.prompts, q.id = p.id → q = p)
    (hid : p.id < db.nextId)
    (hR : R ∈ PAD_RULES)
    (happ : applicable (snap db.facts case_id) R)
    (hviol : missingOf (snap db.facts case_id) R ≠ []) :
    (p ∈ (evaluate_pad_rules db case_id now).2.prompts
      ∧ ∀ q ∈ (evaluate_pad_rules db case_id now).2.prompts,
          q.id = p.id → q = p)
    ∧ ∃ q ∈ (evaluate_pad_rules db case_id now).2.prompts,
        q.status = PStatus.active ∧ q.case_id = case_id ∧
        q.rule_id = R.id ∧ q ≠ p := by
  have hstat : p.status ≠ PStatus.active := by
    rw [hsn]
    simp
  obtain ⟨h1, h2, _⟩ :=
    @evalRulesAux_track (snap db.facts case_id) case_id now p hstat
      PAD_RULES (initResults, db) hmem huniq hid
  have hact :=
    @evalRulesAux_violated_active (snap db.facts case_id) case_id now
      PAD_RULES (initResults, db) (by decide) R hR happ hviol
  rcases hasActivePrompt_iff.1 hact with ⟨q, hq, hq1, hq2, hq3⟩
  refine ⟨⟨h1, h2⟩, q, hq, hq3, hq1, hq2, ?_⟩
  intro he
  rw [he] at hq3
  exact hstat hq3

/-- Witness for C5: the snoozed row of `dbC5` survives re-evaluation
untouched while a distinct active row for the same rule appears, with
the snooze window (`0 < 1000`) still open. -/
theorem claim_C5_witness :
    (pC5 ∈ (evaluate_pad_rules dbC5 "c" 0).2.prompts
      ∧ ∀ q ∈ (evaluate_pad_rules dbC5 "c" 0).2.prompts,
          q.id = pC5.id → q = pC5)
    ∧ ∃ q ∈ (evaluate_pad_rules dbC5 "c" 0).2.prompts,
        q.status = PStatus.active ∧ q.case_id = "c" ∧
        q.rule_id = pad_002.id ∧ q ≠ pC5 :=
  claim_C5 dbC5 "c" 0 pC5 pad_002 1000 rfl rfl (by decide) (by decide)
    (by decide) (by decide) pad_002_mem (Or.inl rfl) (by decide)

/-! ## C3: auto-resolution of satisfied rules -/

/-- The row produced by `_resolve_prompt`'s `UPDATE` on an active
prompt. -/
def resolvedVersion (p : PromptRow) (now : Int) : PromptRow :=
  { p with status := PStatus.resolved
           resolution_type := some ResolutionType.fact_added
           resolved_at := some now
           updatedAt := now }

theorem resolveMark_of_match {cid rid : String} {now : Int} {p : PromptRow}
    (h1 : p.case_id = cid) (h2 : p.rule_id = rid)
    (h3 : p.status = PStatus.active) :
    resolveMark cid rid now p = resolvedVersion p now := by
  unfold resolveMark resolvedVersion
  rw [if_pos ⟨h1, h2, h3⟩]

/-- When no applicable satisfied rule has an active prompt, an
evaluation pass resolves nothing. -/
theorem evalRulesAux_resolved_stable {g : String → Option String}
    {cid : String} {now : Int} :
    ∀ (rules : List Rule) (res : EvalResults) (db : DB),
      (rules.map Rule.id).Nodup →
      (∀ r ∈ rules, applicable g r → missingOf g r = [] →
        hasActivePrompt db.prompts cid r.id = false) →
      (evalRulesAux g cid now rules (res, db)).1.prompts_resolved
        = res.prompts_resolved := by
  intro rules
  induction rules with
  | nil => intro res db _ _; rfl
  | cons r0 rest ih =>
    intro res db hnd hno
    rw [List.map_cons, List.nodup_cons] at hnd
    have hne : ∀ r ∈ rest, r.id ≠ r0.id := by
      intro r2 h2 he
      exact hnd.1 (he ▸ List.mem_map_of_mem Rule.id h2)
    rw [evalRulesAux_cons]
    rcases evalStep_cases g cid now res db r0 with
      he | he | ⟨happ, hm, he⟩ | ⟨happ, hm, ha, he⟩ | ⟨happ, hm, ha, he⟩
    · rw [he]
      exact ih _ db hnd.2
        (fun r h2 ha2 hs2 => hno r (List.mem_cons_of_mem _ h2) ha2 hs2)
    · rw [he]
      exact ih _ db hnd.2
        (fun r h2 ha2 hs2 => hno r (List.mem_cons_of_mem _ h2) ha2 hs2)
    · have ha0 : hasActivePrompt db.prompts cid r0.id = false :=
        hno r0 (List.mem_cons_self _ _) happ hm
      rw [he]
      rw [ih _ _ hnd.2 ?hrest]
      case hrest =>
        intro r h2 ha2 hs2
        have hprev := hno r (List.mem_cons_of_mem _ h2) ha2 hs2
        have hstep := @evalStep_hasActive_ne g cid now res db r0 r.id
          (hne r h2)
        rw [he] at hstep
        rw [hstep]
        exact hprev
      rw [ha0]
      simp
    · rw [he]
      exact ih _ db hnd.2
        (fun r h2 ha2 hs2 => hno r (List.mem_cons_of_mem _ h2) ha2 hs2)
    · rw [he]
      rw [ih _ _ hnd.2 ?hrest2]
      case hrest2 =>
        intro r h2 ha2 hs2
        have hprev := hno r (List.mem_cons_of_mem _ h2) ha2 hs2
        have hstep := @evalStep_hasActive_ne g cid now res db r0 r.id
          (hne r h2)
        rw [he] at hstep
        rw [hstep]
        exact hprev

/-- Exactly one prompt is resolved when exactly one applicable satisfied
rule has a standing active prompt. -/
theorem evalRulesAux_resolved_one {g : String → Option String}
    {cid : String} {now : Int} :
    ∀ (rules : List Rule) (res : EvalResults) (db : DB) (R : Rule),
      (rules.map Rule.id).Nodup →
      R ∈ rules →
      applicable g R → missingOf g R = [] →
      hasActivePrompt db.prompts cid R.id = true →
      (∀ r ∈ rules, r.id ≠ R.id → applicable g r → missingOf g r = [] →
        hasActivePrompt db.prompts cid r.id = false) →
      (evalRulesAux g cid now rules (res, db)).1.prompts_resolved
        = res.prompts_resolved + 1 := by
  intro rules
  induction rules with
  | nil => intro res db R _ hR; simp at hR
  | cons r0 rest ih =>
    intro res db R hnd hR happR hmR hactR hothers
    rw [List.map_cons, List.nodup_cons] at hnd
    have hne : ∀ r ∈ rest, r.id ≠ r0.id := by
      intro r2 h2 he
      exact hnd.1 (he ▸ List.mem_map_of_mem Rule.id h2)
    rw [evalRulesAux_cons]
    rcases List.mem_cons.1 hR with rfl | hRrest
    · rw [evalStep_of_applicable happR, evalRuleBody_satisfied hmR]
      rw [evalRulesAux_resolved_stable rest _ _ hnd.2 ?hrest]
      case hrest =>
        intro r h2 ha2 hs2
        rw [resolve_prompt_prompts, hasActive_resolve_ne (hne r h2)]
        exact hothers r (List.mem_cons_of_mem _ h2)
          (fun he => hnd.1 (he ▸ List.mem_map_of_mem Rule.id h2)) ha2 hs2
      rw [hactR]
      simp
    · have hr0ne : r0.id ≠ R.id := by
        intro he
        exact hnd.1 (he ▸ List.mem_map_of_mem Rule.id hRrest)
      rcases evalStep_cases g cid now res db r0 with
        he | he | ⟨happ, hm, he⟩ | ⟨happ, hm, ha, he⟩ | ⟨happ, hm, ha, he⟩
      · rw [he]
        exact ih _ db R hnd.2 hRrest happR hmR hactR
          (fun r h2 hne2 ha2 hs2 =>
            hothers r (List.mem_cons_of_mem _ h2) hne2 ha2 hs2)
      · rw [he]
        exact ih _ db R hnd.2 hRrest happR hmR hactR
          (fun r h2 hne2 ha2 hs2 =>
            hothers r (List.mem_cons_of_mem _ h2) hne2 ha2 hs2)
      · have ha0 : hasActivePrompt db.prompts cid r0.id = false :=
          hothers r0 (List.mem_cons_self _ _) hr0ne happ hm
        rw [he]
        have hRpreserved :
            hasActivePrompt (resolve_prompt db cid r0.id now).2.prompts cid
              R.id = true := by
          rw [resolve_prompt_prompts,
            hasActive_resolve_ne (fun he2 => hr0ne he2.symm)]
          exact hactR
        rw [ih _ _ R hnd.2 hRrest happR hmR hRpreserved ?hothers2]
        case hothers2 =>
          intro r h2 hne2 ha2 hs2
          rw [resolve_prompt_prompts, hasActive_resolve_ne (hne r h2)]
          exact hothers r (List.mem_cons_of_mem _ h2) hne2 ha2 hs2
        rw [ha0]
        simp
      · rw [he]
        exact ih _ db R hnd.2 hRrest happR hmR hactR
          (fun r h2 hne2 ha2 hs2 =>
            hothers r (List.mem_cons_of_mem _ h2) hne2 ha2 hs2)
      · rw [he]
        have hRpreserved := @evalStep_hasActive_ne g cid now res db r0 R.id
          (fun he2 => hr0ne he2.symm)
        rw [he] at hRpreserved
        refine ih _ _ R hnd.2 hRrest happR hmR ?_ ?_
        · rw [hRpreserved]
          exact hactR
        · intro r h2 hne2 ha2 hs2
          have hstep := @evalStep_hasActive_ne g cid now res db r0 r.id
            (hne r h2)
          rw [he] at hstep
          rw [hstep]
          exact hothers r (List.mem_cons_of_mem _ h2) hne2 ha2 hs2

/-- The active prompt row of a satisfied applicable rule is rewritten to
its resolved version and stays the unique row with its id. -/
theorem evalRulesAux_resolves_row {g : String → Option String}
    {cid : String} {now : Int} :
    ∀ (rules : List Rule) (res : EvalResults) (db : DB) (R : Rule)
      (p : PromptRow),
      (rules.map Rule.id).Nodup →
      R ∈ rules → applicable g R → missingOf g R = [] →
      p ∈ db.prompts → p.case_id = cid → p.rule_id = R.id →
      p.status = PStatus.active →
      (∀ q ∈ db.prompts, q.id = p.id → q = p) →
      p.id < db.nextId →
      resolvedVersion p now ∈ (evalRulesAux g cid now rules (res, db)).2.prompts
      ∧ ∀ q ∈ (evalRulesAux g cid now rules (res, db)).2.prompts,
          q.id = p.id → q = resolvedVersion p now := by
  intro rules
  induction rules with
  | nil => intro res db R p _ hR; simp at hR
  | cons r0 rest ih =>
    intro res db R p hnd hR happR hmR hmem hpc hpr hpa huniq hid
    rw [List.map_cons, List.nodup_cons] at hnd
    rw [evalRulesAux_cons]
    rcases List.mem_cons.1 hR with rfl | hRrest
    · rw [evalStep_of_applicable happR, evalRuleBody_satisfied hmR]
      have hmark : resolveMark cid R.id now p = resolvedVersion p now :=
        resolveMark_of_match hpc hpr hpa
      have hmem2 : resolvedVersion p now
          ∈ (resolve_prompt db cid R.id now).2.prompts := by
        rw [resolve_prompt_prompts]
        exact List.mem_map.2 ⟨p, hmem, hmark⟩
      have huniq2 : ∀ q ∈ (resolve_prompt db cid R.id now).2.prompts,
          q.id = (resolvedVersion p now).id → q = resolvedVersion p now := by
        rw [resolve_prompt_prompts]
        intro q hq hqid
        rcases List.mem_map.1 hq with ⟨q0, hq0, rfl⟩
        rw [resolveMark_id] at hqid
        rw [huniq q0 hq0 hqid]
        exact hmark
      have hid2 : (resolvedVersion p now).id
          < (resolve_prompt db cid R.id now).2.nextId := by
        rw [resolve_prompt_nextId]
        exact hid
      have hstat2 : (resolvedVersion p now).status ≠ PStatus.active := by
        simp [resolvedVersion]
      obtain ⟨h1, h2, _⟩ := @evalRulesAux_track g cid now
        (resolvedVersion p now) hstat2 rest
        (_, (resolve_prompt db cid R.id now).2) hmem2 huniq2 hid2
      exact ⟨h1, h2⟩
    · have hr0ne : r0.id ≠ R.id := by
        intro he
        exact hnd.1 (he ▸ List.mem_map_of_mem Rule.id hRrest)
      rcases evalStep_cases g cid now res db r0 with
        he | he | ⟨happ, hm, he⟩ | ⟨happ, hm, ha, he⟩ | ⟨happ, hm, ha, he⟩
      · rw [he]
        exact ih _ db R p hnd.2 hRrest happR hmR hmem hpc hpr hpa huniq hid
      · rw [he]
        exact ih _ db R p hnd.2 hRrest happR hmR hmem hpc hpr hpa huniq hid
      · rw [he]
        have hpne : p.rule_id ≠ r0.id := by
          rw [hpr]
          exact fun he2 => hr0ne he2.symm
        have hmark0 : resolveMark cid r0.id now p = p :=
          resolveMark_of_ne_rule hpne
        refine ih _ _ R p hnd.2 hRrest happR hmR ?_ hpc hpr hpa ?_ ?_
        · rw [resolve_prompt_prompts]
          exact List.mem_map.2 ⟨p, hmem, hmark0⟩
        · rw [resolve_prompt_prompts]
          intro q hq hqid
          rcases List.mem_map.1 hq with ⟨q0, hq0, rfl⟩
          rw [resolveMark_id] at hqid
          rw [huniq q0 hq0 hqid]
          exact hmark0
        · rw [resolve_prompt_nextId]
          exact hid
      · rw [he]
        exact ih _ db R p hnd.2 hRrest happR hmR hmem hpc hpr hpa huniq hid
      · rw [he]
        refine ih _ _ R p hnd.2 hRrest happR hmR ?_ hpc hpr hpa ?_ ?_
        · exact List.mem_append_left _ hmem
        · intro q hq hqid
          rcases List.mem_append.1 hq with hq1 | hq2
          · exact huniq q hq1 hqid
          · exfalso
            rw [List.mem_singleton.1 hq2] at hqid
            rw [show (newPromptRow db cid r0 (missingOf g r0) now).id
              = db.nextId from rfl] at hqid
            omega
        · simp
          omega

/-- A case where `PAD_003`'s required fact (`abi_value`) is present but
its condition no longer holds (`pad_symptom_class` is now `rest_pain`),
with a standing active `PAD_003` prompt. -/
def dbC3cex : DB :=
  { facts :=
      [{ id := 0, case_id := "c", patient_id := none
         fact_type := "pad_symptom_class", value_json := some "rest_pain"
         confidence := none, source_type := "voice_note"
         voice_note_id := none, source_ref := none, verified := false
         verified_by := none, verified_at := none, superseded_by := none
         superseded_at := none, createdAt := 1, updatedAt := 1 },
       { id := 1, case_id := "c", patient_id := none
         fact_type := "abi_value", value_json := some "0.6"
         confidence := none, source_type := "voice_note"
         voice_note_id := none, source_ref := none, verified := false
         verified_by := none, verified_at := none, superseded_by := none
         superseded_at := none, createdAt := 0, updatedAt := 0 }]
    prompts :=
      [{ id := 10, case_id := "c"
         rule_id := "PAD_003_ABI_FOR_CLAUDICATION"
         status := PStatus.active, severity := Severity.warn
         message := "m", details := "d", guideline_ref := none
         action_choices := "a", snoozed_until := none
         first_surfaced_at := 0, view_count := 0, snooze_count := 0
         resolution_type := none, resolution_note := none
         resolved_by := none, resolved_at := none, createdAt := 0
         updatedAt := 0 }]
    nextId := 20 }

/-- Counterexample to C3 as stated: the snapshot satisfies `PAD_003`'s
required facts (`abi_value` present and non-null), yet because the
rule's condition now evaluates false, the loop records the rule as
passed WITHOUT calling `_resolve_prompt` — the active prompt stays
active, `resolution_type` stays null and `prompts_resolved` is 0. -/
theorem claim_C3_counterexample :
    requiredMissing (snap dbC3cex.facts "c") pad_003 = []
    ∧ (∃ pp ∈ dbC3cex.prompts, pp.case_id = "c" ∧
        pp.rule_id = pad_003.id ∧ pp.status = PStatus.active)
    ∧ (evaluate_pad_rules dbC3cex "c" 5).1.prompts_resolved = 0
    ∧ (∀ q ∈ (evaluate_pad_rules dbC3cex "c" 5).2.prompts, q.id = 10 →
        q.status = PStatus.active ∧ q.resolution_type = none) := by
  decide

/-- C3 (amended): when a rule R is applicable (its condition, if any,
evaluates true) AND its required facts are satisfied, an evaluation pass
rewrites the standing active prompt for `(case_id, R.id)` to `resolved`
with `resolution_type = fact_added`; `prompts_resolved = 1` when R's
prompt is the only resolvable one; and `_resolve_prompt` is a no-op
returning `false` when no active prompt exists for the pair. -/
theorem claim_C3 (db : DB) (case_id : String) (now : Int) (R : Rule)
    (p : PromptRow)
    (hR : R ∈ PAD_RULES)
    (happ : applicable (snap db.facts case_id) R)
    (hsat : missingOf (snap db.facts case_id) R = [])
    (hmem : p ∈ db.prompts)
    (hpc : p.case_id = case_id)
    (hpr : p.rule_id = R.id)
    (hpa : p.status = PStatus.active)
    (huniq : ∀ q ∈ db.prompts, q.id = p.id → q = p)
    (hid : p.id < db.nextId)
    (hothers : ∀ r ∈ PAD_RULES, r.id ≠ R.id →
      applicable (snap db.facts case_id) r →
      missingOf (snap db.facts case_id) r = [] →
      hasActivePrompt db.prompts case_id r.id = false) :
    (resolvedVersion p now ∈ (evaluate_pad_rules db case_id now).2.prompts
      ∧ ∀ q ∈ (evaluate_pad_rules db case_id now).2.prompts,
          q.id = p.id → q = resolvedVersion p now)
    ∧ (evaluate_pad_rules db case_id now).1.prompts_resolved = 1
    ∧ (∀ (db2 : DB) (cid2 rid2 : String) (now2 : Int),
        hasActivePrompt db2.prompts cid2 rid2 = false →
        resolve_prompt db2 cid2 rid2 now2 = (false, db2)) := by
  refine ⟨?_, ?_, ?_⟩
  · exact evalRulesAux_resolves_row PAD_RULES initResults db R p
      (by decide) hR happ hsat hmem hpc hpr hpa huniq hid
  · have hact : hasActivePrompt db.prompts case_id R.id = true :=
      hasActivePrompt_iff.2 ⟨p, hmem, hpc, hpr, hpa⟩
    exact evalRulesAux_resolved_one PAD_RULES initResults db R
      (by decide) hR happ hsat hact hothers
  · intro db2 cid2 rid2 now2 h
    exact resolve_prompt_noop h

/-- A case with the `laterality` fact present and a standing active
`PAD_002` prompt. -/
def dbC3w : DB :=
  { facts :=
      [{ id := 0, case_id := "c", patient_id := none
         fact_type := "laterality", value_json := some "left"
         confidence := none, source_type := "voice_note"
         voice_note_id := none, source_ref := none, verified := false
         verified_by := none, verified_at := none, superseded_by := none
         superseded_at := none, createdAt := 0, updatedAt := 0 }]
    prompts :=
      [{ id := 6, case_id := "c", rule_id := "PAD_002_LATERALITY"
         status := PStatus.active, severity := Severity.block
         message := "m", details := "d", guideline_ref := none
         action_choices := "a", snoozed_until := none
         first_surfaced_at := 0, view_count := 0, snooze_count := 0
         resolution_type := none, resolution_note := none
         resolved_by := none, resolved_at := none, createdAt := 0
         updatedAt := 0 }]
    nextId := 7 }

/-- The active `PAD_002` prompt of `dbC3w`. -/
def pC3w : PromptRow := dbC3w.prompts.get ⟨0, by decide⟩

/-- Witness for C3: after supplying `laterality`, re-evaluation resolves
the standing `PAD_002` prompt with `resolution_type = fact_added` and
reports exactly one resolution. -/
theorem claim_C3_witness :
    (resolvedVersion pC3w 8 ∈ (evaluate_pad_rules dbC3w "c" 8).2.prompts
      ∧ ∀ q ∈ (evaluate_pad_rules dbC3w "c" 8).2.prompts,
          q.id = pC3w.id → q = resolvedVersion pC3w 8)
    ∧ (evaluate_pad_rules dbC3w "c" 8).1.prompts_resolved = 1
    ∧ (∀ (db2 : DB) (cid2 rid2 : String) (now2 : Int),
        hasActivePrompt db2.prompts cid2 rid2 = false →
        resolve_prompt db2 cid2 rid2 now2 = (false, db2)) :=
  claim_C3 dbC3w "c" 8 pad_002 pC3w pad_002_mem (Or.inl rfl) (by decide)
    (by decide) (by decide) (by decide) (by decide) (by decide) (by decide)
    (by
      intro r hr
      unfold PAD_RULES at hr
      simp only [List.mem_cons, List.not_mem_nil, or_false] at hr
      rcases hr with rfl | rfl | rfl | rfl | rfl | rfl | rfl | rfl | rfl <;>
        intro h1 h2 h3 <;>
        first
          | exact absurd rfl h1
          | decide)

/-! ## C9: what the ledger mutators may and may not change -/

theorem mem_insertByCreatedDesc {f a : FactRow} :
    ∀ l : List FactRow, a ∈ insertByCreatedDesc f l ↔ a = f ∨ a ∈ l := by
  intro l
  induction l with
  | nil => simp [insertByCreatedDesc]
  | cons g t ih =>
    unfold insertByCreatedDesc
    split
    · simp [List.mem_cons]
    · simp only [List.mem_cons, ih]
      tauto

theorem mem_sortByCreatedDesc {a : FactRow} :
    ∀ l : List FactRow, a ∈ sortByCreatedDesc l ↔ a ∈ l := by
  intro l
  induction l with
  | nil => simp [sortByCreatedDesc]
  | cons f t ih =>
    unfold sortByCreatedDesc
    rw [mem_insertByCreatedDesc, ih, List.mem_cons]

/-- Counterexample to C9 as stated: `supersede_fact` also rewrites the
row's `updatedAt` bookkeeping column, a field outside the `verified*`
and `superseded*` groups (while `value_json`, `fact_type` and `case_id`
are indeed untouched). -/
theorem claim_C9_counterexample :
    (dbC7w.facts.map fun f => f.updatedAt) = [0]
    ∧ ((supersede_fact true dbC7w 1 none 5).2.facts.map
        fun f => f.updatedAt) = [5]
    ∧ ((supersede_fact true dbC7w 1 none 5).2.facts.map
        fun f => (f.value_json, f.fact_type, f.case_id))
      = (dbC7w.facts.map fun f => (f.value_json, f.fact_type, f.case_id)) := by
  decide

/-- C9 (amended): after creation the only fields the ledger operations
change are the `superseded*` fields plus `updatedAt` (by
`supersede_fact`) and the `verified*` fields plus `updatedAt` (by
`verify_fact`); `id`, `case_id`, `fact_type`, `value_json`,
`confidence`, `source_type` and `createdAt` never change, no row is
deleted, and after a supersession the fact still appears in
`get_fact_history` while `get_fact_map` never surfaces it as current. -/
theorem claim_C9 (storage_ok : Bool) (db : DB) (fact_id : Nat)
    (new_fact_id : Option Nat) (verifier : String) (now : Int) :
    ((supersede_fact storage_ok db fact_id new_fact_id now).2.facts.length
        = db.facts.length
      ∧ ∀ f ∈ db.facts, ∃ f2 ∈
          (supersede_fact storage_ok db fact_id new_fact_id now).2.facts,
          f2.id = f.id ∧ f2.case_id = f.case_id ∧
          f2.fact_type = f.fact_type ∧ f2.value_json = f.value_json ∧
          f2.confidence = f.confidence ∧ f2.source_type = f.source_type ∧
          f2.createdAt = f.createdAt ∧ f2.verified = f.verified ∧
          f2.verified_by = f.verified_by ∧ f2.verified_at = f.verified_at)
    ∧ ((verify_fact storage_ok db fact_id verifier now).2.facts.length
        = db.facts.length
      ∧ ∀ f ∈ db.facts, ∃ f2 ∈
          (verify_fact storage_ok db fact_id verifier now).2.facts,
          f2.id = f.id ∧ f2.case_id = f.case_id ∧
          f2.fact_type = f.fact_type ∧ f2.value_json = f.value_json ∧
          f2.confidence = f.confidence ∧ f2.source_type = f.source_type ∧
          f2.createdAt = f.createdAt ∧
          f2.superseded_by = f.superseded_by ∧
          f2.superseded_at = f.superseded_at)
    ∧ (∀ f ∈ db.facts, f.id = fact_id →
        ∃ f2 ∈ get_fact_history
          (supersede_fact true db fact_id new_fact_id now).2.facts
          f.case_id none, f2.id = fact_id)
    ∧ (∀ (cid2 ft : String) (e : FactMapEntry),
        get_fact_map (supersede_fact true db fact_id new_fact_id now).2.facts
          cid2 ft = some e → e.fact_id ≠ fact_id) := by
  refine ⟨⟨?_, ?_⟩, ⟨?_, ?_⟩, ?_, ?_⟩
  · cases storage_ok
    · rfl
    · unfold supersede_fact
      rw [if_pos rfl]
      exact List.length_map _ _
  · intro f hf
    cases storage_ok
    · exact ⟨f, hf, rfl, rfl, rfl, rfl, rfl, rfl, rfl, rfl, rfl, rfl⟩
    · unfold supersede_fact
      rw [if_pos rfl]
      refine ⟨_, List.mem_map.2 ⟨f, hf, rfl⟩, ?_⟩
      by_cases h : f.id = fact_id <;> simp [h]
  · cases storage_ok
    · rfl
    · unfold verify_fact
      rw [if_pos rfl]
      exact List.length_map _ _
  · intro f hf
    cases storage_ok
    · exact ⟨f, hf, rfl, rfl, rfl, rfl, rfl, rfl, rfl, rfl, rfl⟩
    · unfold verify_fact
      rw [if_pos rfl]
      refine ⟨_, List.mem_map.2 ⟨f, hf, rfl⟩, ?_⟩
      by_cases h : f.id = fact_id <;> simp [h]
  · intro f hf hfid
    refine ⟨{ f with superseded_by := new_fact_id
                     superseded_at := some now
                     updatedAt := now }, ?_, hfid⟩
    unfold get_fact_history
    rw [mem_sortByCreatedDesc]
    refine List.mem_filter.2 ⟨?_, by simp⟩
    unfold supersede_fact
    rw [if_pos rfl]
    refine List.mem_map.2 ⟨f, hf, ?_⟩
    rw [if_pos hfid]
  · intro cid2 ft e he
    unfold get_fact_map at he
    rcases hl : liveFactsFor
        (supersede_fact true db fact_id new_fact_id now).2.facts cid2 ft
      with _ | ⟨h, t⟩
    · rw [hl] at he
      simp at he
    · rw [hl] at he
      simp only [Option.some.injEq] at he
      have hbm : t.foldl pickFact h ∈ liveFactsFor
          (supersede_fact true db fact_id new_fact_id now).2.facts cid2
          ft := by
        rw [hl]
        exact foldl_pickFact_mem t h
      rcases liveFactsFor_mem.1 hbm with ⟨hbf, _, hlive, _⟩
      intro hfid
      rw [← he] at hfid
      have hfid2 : (t.foldl pickFact h).id = fact_id := hfid
      unfold supersede_fact at hbf
      rw [if_pos rfl] at hbf
      rcases List.mem_map.1 hbf with ⟨f0, _, heq⟩
      by_cases h0 : f0.id = fact_id
      · rw [if_pos h0] at heq
        rw [← heq] at hlive
        simp at hlive
      · rw [if_neg h0] at heq
        rw [← heq] at hfid2
        exact h0 hfid2

/-- Witness for C9: the superseded fact of `dbC7w` still appears in the
case's fact history. -/
theorem claim_C9_witness :
    ∃ f2 ∈ get_fact_history (supersede_fact true dbC7w 1 none 5).2.facts
      "c" none, f2.id = 1 :=
  (claim_C9 true dbC7w 1 none "dr" 5).2.2.1 (dbC7w.facts.get ⟨0, by decide⟩)
    (by decide) (by decide)

end ShadowCoder
